import Mathlib

/-!
Verification of the event-driven multi-agent pipeline (ADMADC).

This file gives a shallow embedding, in Lean 4, of the pure coordination
logic of the repository: the event envelope and its deterministic
idempotency key (`shared/contracts/events.py`), the broker retry and
dead-letter algorithm (`shared/utils/rabbitmq.py`), the QA review loop and
plan-readiness barrier (`services/qa_service`), the security scanner
(`services/security_service`), and the memory store's task upsert and
event-indexing policy (`services/memory_service/store.py`).

Machine integers are modelled as `Nat` with explicit `% 2^32` where the
source overflows (SHA-256); fractional delays and weights are `ℚ`;
fallible steps return `Option`.  All definitions are executable so that
theorems with hypotheses can be instantiated on concrete inputs.
-/

/-! ### Small string helpers (Python `str` semantics on ASCII data) -/

/-- Characters Python's `str.strip()` and `\s` treat as whitespace. -/
def pySpace (c : Char) : Bool :=
  c == ' ' || c == '\t' || c == '\n' || c == '\r' || c == '\x0b' || c == '\x0c'

/-- Python `str.strip()`: drop whitespace from both ends. -/
def pyStrip (s : String) : String :=
  ⟨((s.data.dropWhile pySpace).reverse.dropWhile pySpace).reverse⟩

/-- Python `str.upper()` on ASCII data. -/
def pyUpper (s : String) : String := ⟨s.data.map Char.toUpper⟩

/-- Python `str.lower()` on ASCII data. -/
def pyLower (s : String) : String := ⟨s.data.map Char.toLower⟩

/-- Python `sep.join(xs)`. -/
def joinSep (sep : String) : List String → String
  | [] => ""
  | [s] => s
  | s :: rest => s ++ sep ++ joinSep sep rest

/-- Decimal digits of a natural number, least significant first (fuel-driven
so that it reduces inside the kernel). -/
def decDigitsFuel : Nat → Nat → List Nat
  | 0, _ => []
  | fuel + 1, n => if n = 0 then [] else n % 10 :: decDigitsFuel fuel (n / 10)

/-- Decimal digits of `n`, least significant first. -/
def decDigits (n : Nat) : List Nat := decDigitsFuel n n

/-- Decimal string representation of a natural number (Python `str(n)` and
`f"{n}"` for non-negative `n`). -/
def natRepr (n : Nat) : String :=
  if n = 0 then "0" else ⟨((decDigits n).map Nat.digitChar).reverse⟩

/-- Decimal string representation of an integer. -/
def intRepr (i : Int) : String :=
  if i < 0 then "-" ++ natRepr i.natAbs else natRepr i.natAbs

/-! ### SHA-256 (`hashlib.sha256(...).hexdigest()`), on byte lists as `Nat` -/

/-- Truncate to a 32-bit word. -/
def w32 (n : Nat) : Nat := n % 4294967296

/-- Rotate a 32-bit word right by `n` bits. -/
def rotr (n x : Nat) : Nat := w32 ((x >>> n) + ((x % (2 ^ n)) <<< (32 - n)))

/-- The SHA-256 round constants. -/
def shaK : List Nat :=
  [1116352408, 1899447441, 3049323471, 3921009573, 961987163, 1508970993,
   2453635748, 2870763221, 3624381080, 310598401, 607225278, 1426881987,
   1925078388, 2162078206, 2614888103, 3248222580, 3835390401, 4022224774,
   264347078, 604807628, 770255983, 1249150122, 1555081692, 1996064986,
   2554220882, 2821834349, 2952996808, 3210313671, 3336571891, 3584528711,
   113926993, 338241895, 666307205, 773529912, 1294757372, 1396182291,
   1695183700, 1986661051, 2177026350, 2456956037, 2730485921, 2820302411,
   3259730800, 3345764771, 3516065817, 3600352804, 4094571909, 275423344,
   430227734, 506948616, 659060556, 883997877, 958139571, 1322822218,
   1537002063, 1747873779, 1955562222, 2024104815, 2227730452, 2361852424,
   2428436474, 2756734187, 3204031479, 3329325298]

/-- The SHA-256 initial hash state. -/
def shaH0 : List Nat :=
  [1779033703, 3144134277, 1013904242, 2773480762,
   1359893119, 2600822924, 528734635, 1541459225]

/-- SHA-256 message padding: append `0x80`, zeros, and the 64-bit big-endian
bit length so the total length is a multiple of 64 bytes. -/
def padMsg (msg : List Nat) : List Nat :=
  let L := msg.length
  let z := (64 + 56 - ((L + 1) % 64)) % 64
  msg ++ [0x80] ++ List.replicate z 0 ++
    ([56, 48, 40, 32, 24, 16, 8, 0].map (fun s => ((8 * L) >>> s) % 256))

/-- Split a byte list into 64-byte blocks (fuel-driven). -/
def toBlocksFuel : Nat → List Nat → List (List Nat)
  | 0, _ => []
  | _, [] => []
  | fuel + 1, l => l.take 64 :: toBlocksFuel fuel (l.drop 64)

/-- Split a byte list into 64-byte blocks. -/
def toBlocks (l : List Nat) : List (List Nat) := toBlocksFuel l.length l

/-- Combine groups of four bytes into big-endian 32-bit words. -/
def words16 : List Nat → List Nat
  | b0 :: b1 :: b2 :: b3 :: rest =>
      (b0 <<< 24 + b1 <<< 16 + b2 <<< 8 + b3) :: words16 rest
  | _ => []

/-- SHA-256 sigma functions. -/
def smallSigma0 (x : Nat) : Nat := (rotr 7 x) ^^^ (rotr 18 x) ^^^ (x >>> 3)

/-- SHA-256 sigma functions. -/
def smallSigma1 (x : Nat) : Nat := (rotr 17 x) ^^^ (rotr 19 x) ^^^ (x >>> 10)

/-- SHA-256 big sigma functions. -/
def bigSigma0 (x : Nat) : Nat := (rotr 2 x) ^^^ (rotr 13 x) ^^^ (rotr 22 x)

/-- SHA-256 big sigma functions. -/
def bigSigma1 (x : Nat) : Nat := (rotr 6 x) ^^^ (rotr 11 x) ^^^ (rotr 25 x)

/-- Extend the 16 message words to the full 64-word schedule. -/
def extendW (fuel : Nat) (w : List Nat) : List Nat :=
  match fuel with
  | 0 => w
  | fuel + 1 =>
      let i := w.length
      let nw := w32 (smallSigma1 (w.getD (i - 2) 0) + w.getD (i - 7) 0 +
                     smallSigma0 (w.getD (i - 15) 0) + w.getD (i - 16) 0)
      extendW fuel (w ++ [nw])

/-- The eight SHA-256 working registers. -/
structure Regs where
  a : Nat
  b : Nat
  c : Nat
  d : Nat
  e : Nat
  f : Nat
  g : Nat
  h : Nat

/-- One SHA-256 compression round. -/
def shaRound (r : Regs) (kw : Nat × Nat) : Regs :=
  let t1 := w32 (r.h + bigSigma1 r.e + ((r.e &&& r.f) ^^^ ((4294967295 - r.e) &&& r.g)) + kw.1 + kw.2)
  let t2 := w32 (bigSigma0 r.a + ((r.a &&& r.b) ^^^ (r.a &&& r.c) ^^^ (r.b &&& r.c)))
  ⟨w32 (t1 + t2), r.a, r.b, r.c, w32 (r.d + t1), r.e, r.f, r.g⟩

/-- Compress one 64-byte block into the hash state. -/
def compressBlock (h : List Nat) (block : List Nat) : List Nat :=
  let w := extendW 48 (words16 block)
  let r0 : Regs := ⟨h.getD 0 0, h.getD 1 0, h.getD 2 0, h.getD 3 0,
                    h.getD 4 0, h.getD 5 0, h.getD 6 0, h.getD 7 0⟩
  let rf := (shaK.zip w).foldl shaRound r0
  [w32 (h.getD 0 0 + rf.a), w32 (h.getD 1 0 + rf.b), w32 (h.getD 2 0 + rf.c),
   w32 (h.getD 3 0 + rf.d), w32 (h.getD 4 0 + rf.e), w32 (h.getD 5 0 + rf.f),
   w32 (h.getD 6 0 + rf.g), w32 (h.getD 7 0 + rf.h)]

/-- SHA-256 of a byte list, as eight 32-bit words. -/
def sha256Words (msg : List Nat) : List Nat :=
  (toBlocks (padMsg msg)).foldl compressBlock shaH0

/-- Lower-case hex rendering of one 32-bit word. -/
def hexOfWord (wd : Nat) : List Char :=
  [28, 24, 20, 16, 12, 8, 4, 0].map (fun s => Nat.digitChar ((wd >>> s) % 16))

/-- Bytes of an ASCII string (the strings hashed by the program are ASCII,
where UTF-8 bytes and code points coincide). -/
def strBytes (s : String) : List Nat := s.data.map Char.toNat

/-- Python `hashlib.sha256(s.encode()).hexdigest()`. -/
def sha256Hex (s : String) : String :=
  ⟨(sha256Words (strBytes s)).flatMap hexOfWord⟩

/-! ### JSON values and canonical serialization

`shared/contracts/events.py` hashes payloads through
`json.dumps(data, sort_keys=True, default=str)`.  `Json` models the Python
values appearing in payloads; `Json.dumps` models `json.dumps` with
`sort_keys=True` and the default separators `", "` / `": "`.
-/

/-- A JSON value (the shape of event payloads). -/
inductive Json where
  | null : Json
  | bool (b : Bool) : Json
  | num (i : Int) : Json
  | str (s : String) : Json
  | arr (xs : List Json) : Json
  | obj (fields : List (String × Json)) : Json

/-- JSON string escaping for the characters appearing in payloads. -/
def jsonEscapeChar (c : Char) : List Char :=
  if c = '"' then ['\\', '"']
  else if c = '\\' then ['\\', '\\']
  else if c = '\n' then ['\\', 'n']
  else if c = '\t' then ['\\', 't']
  else if c = '\r' then ['\\', 'r']
  else [c]

/-- JSON string escaping. -/
def jsonEscape (s : String) : String := ⟨s.data.flatMap jsonEscapeChar⟩

/-- Stable insertion into a key-sorted association list (by string key). -/
def insertByKey {α : Type} (p : String × α) : List (String × α) → List (String × α)
  | [] => [p]
  | q :: qs => if p.1 ≤ q.1 then p :: q :: qs else q :: insertByKey p qs

/-- Stable sort of an association list by string key (`sort_keys=True`;
Python's sort is stable). -/
def sortByKey {α : Type} : List (String × α) → List (String × α)
  | [] => []
  | p :: ps => insertByKey p (sortByKey ps)

/-- Render one already-serialized object field, Python separators `": "`. -/
def renderField (q : String × String) : String :=
  "\"" ++ jsonEscape q.1 ++ "\": " ++ q.2

mutual

/-- Model of `json.dumps(v, sort_keys=True)` with default separators:
object keys are sorted recursively (each field's value is serialized, then
the fields are ordered by key and rendered). -/
def Json.dumps : Json → String
  | .null => "null"
  | .bool true => "true"
  | .bool false => "false"
  | .num i => intRepr i
  | .str s => "\"" ++ jsonEscape s ++ "\""
  | .arr xs => "[" ++ joinSep ", " (Json.dumpList xs) ++ "]"
  | .obj fs =>
      "\x7b" ++ joinSep ", " ((sortByKey (Json.dumpFields fs)).map renderField) ++ "\x7d"

/-- Serialize each array element. -/
def Json.dumpList : List Json → List String
  | [] => []
  | x :: xs => Json.dumps x :: Json.dumpList xs

/-- Serialize each field's value, keeping its key. -/
def Json.dumpFields : List (String × Json) → List (String × String)
  | [] => []
  | (k, v) :: ps => (k, Json.dumps v) :: Json.dumpFields ps

end

mutual

/-- Well-formedness of a payload: object keys are unique at every level
(Python `dict`s cannot carry duplicate keys). -/
def Json.wf : Json → Bool
  | .null => true
  | .bool _ => true
  | .num _ => true
  | .str _ => true
  | .arr xs => Json.wfList xs
  | .obj fs => Json.wfFields fs

/-- Well-formedness of array elements. -/
def Json.wfList : List Json → Bool
  | [] => true
  | x :: xs => Json.wf x && Json.wfList xs

/-- Well-formedness of object fields: the key is fresh and the value is
well-formed. -/
def Json.wfFields : List (String × Json) → Bool
  | [] => true
  | (k, v) :: ps => ps.all (fun q => q.1 != k) && Json.wf v && Json.wfFields ps

end

mutual

/-- Semantic equality of payloads: Python `==` on the decoded values, i.e.
structural equality except that object fields may appear in any order. -/
inductive Json.SemEq : Json → Json → Prop
  | null : Json.SemEq .null .null
  | bool (b : Bool) : Json.SemEq (.bool b) (.bool b)
  | num (i : Int) : Json.SemEq (.num i) (.num i)
  | str (s : String) : Json.SemEq (.str s) (.str s)
  | arr {xs ys : List Json} : Json.SemEqList xs ys → Json.SemEq (.arr xs) (.arr ys)
  | obj {fs fs' gs : List (String × Json)} :
      fs.Perm fs' → Json.SemEqFields fs' gs → Json.SemEq (.obj fs) (.obj gs)

/-- Pointwise semantic equality of array elements. -/
inductive Json.SemEqList : List Json → List Json → Prop
  | nil : Json.SemEqList [] []
  | cons {x y : Json} {xs ys : List Json} :
      Json.SemEq x y → Json.SemEqList xs ys → Json.SemEqList (x :: xs) (y :: ys)

/-- Pointwise semantic equality of object fields: same key, semantically
equal value. -/
inductive Json.SemEqFields : List (String × Json) → List (String × Json) → Prop
  | nil : Json.SemEqFields [] []
  | cons {k : String} {v w : Json} {ps qs : List (String × Json)} :
      Json.SemEq v w → Json.SemEqFields ps qs →
      Json.SemEqFields ((k, v) :: ps) ((k, w) :: qs)

end

/-! ### Event envelope (`shared/contracts/events.py`) -/

/-- The event-type enum exactly as declared in
`src/shared/contracts/events.py` (lines 19-31): twelve members. -/
inductive EventType where
  | PLAN_REQUESTED
  | PLAN_CREATED
  | TASK_ASSIGNED
  | CODE_GENERATED
  | PR_REQUESTED
  | PR_CREATED
  | MEMORY_STORE
  | MEMORY_QUERY
  | QA_PASSED
  | QA_FAILED
  | SECURITY_APPROVED
  | SECURITY_BLOCKED
deriving DecidableEq

/-- The string value of each enum member. -/
def EventType.value : EventType → String
  | .PLAN_REQUESTED => "plan.requested"
  | .PLAN_CREATED => "plan.created"
  | .TASK_ASSIGNED => "task.assigned"
  | .CODE_GENERATED => "code.generated"
  | .PR_REQUESTED => "pr.requested"
  | .PR_CREATED => "pr.created"
  | .MEMORY_STORE => "memory.store"
  | .MEMORY_QUERY => "memory.query"
  | .QA_PASSED => "qa.passed"
  | .QA_FAILED => "qa.failed"
  | .SECURITY_APPROVED => "security.approved"
  | .SECURITY_BLOCKED => "security.blocked"

/-- All members of the enum, in declaration order. -/
def EventType.all : List EventType :=
  [.PLAN_REQUESTED, .PLAN_CREATED, .TASK_ASSIGNED, .CODE_GENERATED,
   .PR_REQUESTED, .PR_CREATED, .MEMORY_STORE, .MEMORY_QUERY,
   .QA_PASSED, .QA_FAILED, .SECURITY_APPROVED, .SECURITY_BLOCKED]

/-- Enum validation, as performed by `EventType(raw)` and by pydantic when
validating `BaseEvent.event_type`: a string is accepted exactly when it is
the value of some member. -/
def EventType.fromString? (s : String) : Option EventType :=
  EventType.all.find? (fun t => t.value == s)

/-- The canonical payload hash `_stable_hash` of
`src/shared/contracts/events.py` (lines 210-215):
`sha256(json.dumps(data, sort_keys=True, default=str).encode()).hexdigest()`. -/
def stable_hash (data : Json) : String := sha256Hex (Json.dumps data)

/-- The idempotency key filled in by `BaseEvent.model_post_init`
(lines 55-58): `sha256(f"{event_type.value}:{_stable_hash(payload)}")`. -/
def model_post_init_key (event_type : EventType) (payload : Json) : String :=
  sha256Hex (event_type.value ++ ":" ++ stable_hash payload)

/-- The canonical event envelope (`BaseEvent`).  `event_id` and `timestamp`
are produced by effectful default factories (`uuid.uuid4()` /
`datetime.now`), so the embedding takes them as inputs. -/
structure BaseEvent where
  event_id : String
  event_type : EventType
  version : String
  timestamp : String
  producer : String
  idempotency_key : String
  payload : Json

/-- Envelope construction: the constructor defaults plus
`model_post_init`, which derives `idempotency_key` when it was not
supplied (the constructors in `events.py` never supply one). -/
def mk_base_event (event_id : String) (event_type : EventType)
    (timestamp producer : String) (payload : Json) : BaseEvent :=
  ⟨event_id, event_type, "1.0", timestamp, producer,
   model_post_init_key event_type payload, payload⟩

/-- The idempotency-key formula as the specification words it: the hash of
the event-type string concatenated with the canonical JSON of the payload
(no separator, no inner digest).  Stated from the specification, for
comparison with `model_post_init_key`. -/
def spec_claimed_key (event_type : EventType) (payload : Json) : String :=
  sha256Hex (event_type.value ++ Json.dumps payload)

/-! ### Broker abstraction (`shared/utils/rabbitmq.py`) -/

/-- The main topic exchange name. -/
def EXCHANGE_NAME : String := "admadc.events"

/-- The dead-letter topic exchange name. -/
def DLX_EXCHANGE_NAME : String := "admadc.dlx"

/-- Name of the paired dead-letter queue declared by `subscribe`
(`f"dlq.{queue_name}"`), bound on the dead-letter exchange to the same
routing keys as the main queue. -/
def dlq_name (queue_name : String) : String := "dlq." ++ queue_name

/-- The retry-scoped idempotency key computed by `_on_message`
(lines 221-225): the envelope key for the original delivery, and
`f"{key}:retry:{retry_count}"` for republished retries. -/
def effective_key (idem : String) (retry_count : Nat) : String :=
  if retry_count = 0 then idem else idem ++ ":retry:" ++ natRepr retry_count

/-- What `_on_message` does with one delivery.  `ackSkip`: duplicate,
acknowledged without invoking the handler.  `ackDone`: handler succeeded,
acknowledged.  `republish`: handler failed with retries remaining — after
the given delay the same body is republished on the main exchange with the
given `x-retry-count` header.  `deadLetter`: retries exhausted — the body
is published on the dead-letter exchange with the `x-final-failure`
header. -/
inductive MsgAction where
  | ackSkip : MsgAction
  | ackDone : MsgAction
  | republish (retry_count : Nat) (delay : ℚ) : MsgAction
  | deadLetter (final_failure_header : Bool) : MsgAction
deriving DecidableEq

/-- Result of one `_on_message` delivery: whether the user handler was
invoked, the idempotency store afterwards, the follow-up action, and
whether the delivery was settled without requeue (acknowledged on the
success/skip paths, rejected with `requeue=False` by
`message.process(requeue=False)` on the failure paths). -/
structure OnMessageResult where
  invoked : Bool
  seen : List String
  action : MsgAction
  settled : Bool
deriving DecidableEq

/-- One delivery through `_on_message` (lines 214-261).  The idempotency
store is the in-memory set of `IdempotencyStore` (lines 41-70); `is_seen`
is membership and `mark_seen` insertion.  `handler_ok` abstracts whether
the user handler returns or raises. -/
def on_message (max_retries : Nat) (retry_delay_base : ℚ)
    (seen : List String) (idem : String) (retry_count : Nat)
    (handler_ok : Bool) : OnMessageResult :=
  let key := effective_key idem retry_count
  if key ∈ seen then
    ⟨false, seen, .ackSkip, true⟩
  else
    let seen' := key :: seen
    if handler_ok then
      ⟨true, seen', .ackDone, true⟩
    else if retry_count < max_retries - 1 then
      ⟨true, seen', .republish (retry_count + 1)
        (min (retry_delay_base * 2 ^ retry_count) 32), true⟩
    else
      ⟨true, seen', .deadLetter true, true⟩

/-- Deliveries of one message whose handler fails every time: each
republished retry is consumed again by the same queue, until the message
is dead-lettered.  Fuel-driven; `run_failing n …` follows at most `n`
deliveries. -/
def run_failing (max_retries : Nat) (retry_delay_base : ℚ) :
    Nat → List String → String → Nat → List OnMessageResult
  | 0, _, _, _ => []
  | fuel + 1, seen, idem, rc =>
      let r := on_message max_retries retry_delay_base seen idem rc false
      r :: (match r.action with
            | .republish rc' _ => run_failing max_retries retry_delay_base fuel r.seen idem rc'
            | _ => [])

/-! ### Memory store task upsert (`services/memory_service/store.py`) -/

/-- One row of the `task_states` table. -/
structure TaskState where
  task_id : String
  plan_id : String
  status : String
  file_path : String
  code : String
  repo_url : String
  qa_attempt : Nat
deriving DecidableEq

/-- Primary-key lookup (`session.get(TaskState, task_id)`). -/
def find_task (store : List TaskState) (task_id : String) : Option TaskState :=
  store.find? (fun t => t.task_id == task_id)

/-- `MemoryStore.update_task` (lines 134-166): upsert on the task row.
For an existing row: `status` is always assigned; `file_path`, `code` and
`repo_url` use Python `new or existing` (the empty string keeps the stored
value); `qa_attempt` is assigned only when supplied.  A missing row is
inserted with the given values and `qa_attempt` defaulting to 0. -/
def update_task (store : List TaskState) (task_id plan_id status file_path code repo_url : String)
    (qa_attempt : Option Nat) : List TaskState :=
  if (find_task store task_id).isSome then
    store.map (fun t =>
      if t.task_id == task_id then
        { t with
          status := status
          file_path := if file_path = "" then t.file_path else file_path
          code := if code = "" then t.code else code
          repo_url := if repo_url = "" then t.repo_url else repo_url
          qa_attempt := qa_attempt.getD t.qa_attempt }
      else t)
  else
    store ++ [⟨task_id, plan_id, status, file_path, code, repo_url, qa_attempt.getD 0⟩]

/-! ### QA review-response parsing (`services/qa_service/reviewer.py`) -/

/-- Result of a QA review. -/
structure ReviewResult where
  passed : Bool
  issues : List String
  reasoning : String
deriving DecidableEq

/-- Python `str.replace(pat, rep)` for a non-empty pattern: replace every
non-overlapping occurrence, scanning left to right (fuel-driven). -/
def replaceAllChars (pat rep : List Char) : Nat → List Char → List Char
  | 0, cs => cs
  | fuel + 1, cs =>
      if pat.isPrefixOf cs then rep ++ replaceAllChars pat rep fuel (cs.drop pat.length)
      else
        match cs with
        | [] => []
        | c :: rest => c :: replaceAllChars pat rep fuel rest

/-- Python `s.replace(pat, rep)` for a non-empty pattern. -/
def pyReplace (s pat rep : String) : String :=
  ⟨replaceAllChars pat.data rep.data (s.data.length + 1) s.data⟩

/-- Split on newline characters (the parser's inputs use `\n` line
endings; `str.splitlines` additionally recognises other separators). -/
def pySplitlinesGo : List Char → List (List Char)
  | [] => [[]]
  | c :: rest =>
      if c = '\n' then [] :: pySplitlinesGo rest
      else
        match pySplitlinesGo rest with
        | [] => [[c]]
        | l :: ls => (c :: l) :: ls

/-- Python `str.splitlines()` on `\n`-separated text: no trailing empty
line, and the empty string has no lines. -/
def pySplitlines (s : String) : List String :=
  if s.data.isEmpty then []
  else
    let ps := pySplitlinesGo s.data
    let ps := if s.data.getLast? = some '\n' then ps.dropLast else ps
    ps.map (fun l => ⟨l⟩)

/-- The per-line mutable state of `_parse_review_response`. -/
structure ParseState where
  passed : Bool
  issues : List String
  reasoning : String
  in_issues : Bool
deriving DecidableEq

/-- One loop iteration of `_parse_review_response` (lines 182-201). -/
def parse_line (st : ParseState) (line : String) : ParseState :=
  let stripped := pyStrip line
  let upper := pyUpper stripped
  if "REASONING:".data.isPrefixOf upper.data then
    { st with reasoning := pyStrip ⟨stripped.data.drop 10⟩, in_issues := false }
  else if "VERDICT:".data.isPrefixOf upper.data then
    let verdict := pyStrip (pyReplace upper "VERDICT:" "")
    { st with passed := verdict == "PASS", in_issues := false }
  else if "ISSUES:".data.isPrefixOf upper.data then
    let inline := pyStrip ⟨stripped.data.drop 7⟩
    let st' := { st with in_issues := true }
    if pyLower inline != "none" && inline != "" then
      { st' with issues := st'.issues ++ [inline] }
    else st'
  else if st.in_issues && "- ".data.isPrefixOf stripped.data then
    let issue := pyStrip ⟨stripped.data.dropWhile (fun c => c == '-' || c == ' ')⟩
    if pyLower issue != "none" && issue != "" then
      { st with issues := st.issues ++ [issue] }
    else st
  else st

/-- `_parse_review_response` (lines 174-210): fold the lines of the
stripped content over `parse_line`, starting from
`passed = True, issues = [], reasoning = "", in_issues = False`; a FAIL
with no recorded issues receives a synthetic issue. -/
def parse_review_response (content : String) : ReviewResult :=
  let lines := pySplitlines (pyStrip content)
  let st := lines.foldl parse_line ⟨true, [], "", false⟩
  let issues :=
    if !st.passed && st.issues.isEmpty then
      ["LLM reviewer returned FAIL without specific issues"]
    else st.issues
  ⟨st.passed, issues, st.reasoning⟩

/-! ### QA service handler (`services/qa_service/main.py`)

The typed payload contracts referenced by the QA handler.  The handler
code reads `payload.reasoning` on `code.generated` payloads and forwards a
`reasoning` value into `QAResultPayload` and the PR file entries; these
fields belong to the later, richer revision of
`shared/contracts/events.py` whose payload classes are not in the tree
(the revision present stops at `qa_attempt`).  The `reasoning` fields
below are therefore modelled from the spec (§3 data model), which lists
them on `code.generated` and `qa.passed/qa.failed`.
-/

/-- `code.generated` payload.  The `reasoning` field is modelled from the
spec (see section comment): the developer's reasoning chain. -/
structure CodeGeneratedPayload where
  plan_id : String
  task_id : String
  file_path : String
  code : String
  language : String
  qa_attempt : Nat
  reasoning : String
deriving DecidableEq

/-- `qa.passed` / `qa.failed` payload (`QAResultPayload`); `reasoning`
modelled from the spec. -/
structure QAResultPayload where
  plan_id : String
  task_id : String
  passed : Bool
  issues : List String
  code : String
  file_path : String
  qa_attempt : Nat
  reasoning : String
deriving DecidableEq

/-- A task specification (`TaskSpec`). -/
structure TaskSpec where
  task_id : String
  description : String
  file_path : String
  language : String
deriving DecidableEq

/-- `task.assigned` payload. -/
structure TaskAssignedPayload where
  plan_id : String
  task : TaskSpec
  qa_feedback : String
deriving DecidableEq

/-- `pr.requested` payload. -/
structure PRRequestedPayload where
  plan_id : String
  repo_url : String
  branch_name : String
  files : List CodeGeneratedPayload
  commit_message : String
  security_approved : Bool
deriving DecidableEq

/-- An event published by the QA service handler, tagged with its
event type. -/
inductive QAEvent where
  | qa_passed (p : QAResultPayload) : QAEvent
  | qa_failed (p : QAResultPayload) : QAEvent
  | task_assigned (p : TaskAssignedPayload) : QAEvent
  | pr_requested (p : PRRequestedPayload) : QAEvent
deriving DecidableEq

/-- Update of a reasoning cache (`_dev_reasoning_cache` /
`_qa_reasoning_cache`), modelled as a total map with default `""`. -/
def cacheInsert (cache : String → String) (key value : String) : String → String :=
  fun k => if k == key then value else cache k

/-- `_build_chain_reasoning` (lines 290-299): the combined dev+QA
reasoning for a task, from the two caches. -/
def build_chain_reasoning (devCache qaCache : String → String) (task_id : String) : String :=
  let dev := devCache task_id
  let qa := qaCache task_id
  joinSep "\n"
    ((if dev != "" then ["[Developer] " ++ dev] else []) ++
     (if qa != "" then ["[QA Reviewer] " ++ qa] else []))

/-- `_update_task_state` (lines 317-335): POST the new status (and, on
retry, the new `qa_attempt`) with empty `file_path`/`code`, which the
memory upsert preserves. -/
def update_task_state (store : List TaskState) (task_id plan_id status : String)
    (qa_attempt : Option Nat) : List TaskState :=
  update_task store task_id plan_id status "" "" "" qa_attempt

/-- The effect of a status-only upsert (`_update_task_state` with empty
`file_path`/`code` and no `qa_attempt`) on a table that already holds the
row: only the status cell changes. -/
def set_status (tid status : String) (store : List TaskState) : List TaskState :=
  store.map (fun t => if t.task_id == tid then { t with status := status } else t)

/-- `_check_plan_ready_for_pr` (lines 246-287): read all tasks of the
plan; if there are any and every one is `qa_passed`, aggregate one
`pr.requested` payload whose `files` has one entry per task carrying the
task's `file_path`, `code` and combined dev+QA reasoning. -/
def check_plan_ready_for_pr (devCache qaCache : String → String)
    (plan_id : String) (all_tasks : List TaskState) : Option PRRequestedPayload :=
  if all_tasks.isEmpty then none
  else if all_tasks.all (fun t => t.status == "qa_passed") then
    some
      ⟨plan_id,
       ((all_tasks.head?).map (fun t => t.repo_url)).getD "",
       "admadc/plan-" ++ plan_id.take 8,
       all_tasks.map (fun t =>
         ⟨plan_id, t.task_id, t.file_path, t.code, "python", 0,
          build_chain_reasoning devCache qaCache t.task_id⟩),
       "feat: implement plan " ++ plan_id.take 8 ++ " (QA approved)",
       false⟩
  else none

/-- The `pr.requested` payload aggregated by the barrier when every task
of the plan is `qa_passed`: the first task's `repo_url`, the
`admadc/plan-<id8>` branch, one file entry per task with its
`file_path`, `code` and combined dev+QA reasoning. -/
def plan_pr_payload (devCache qaCache : String → String) (plan_id : String)
    (tasks : List TaskState) : PRRequestedPayload :=
  ⟨plan_id,
   ((tasks.head?).map (fun t => t.repo_url)).getD "",
   "admadc/plan-" ++ plan_id.take 8,
   tasks.map (fun t =>
     ⟨plan_id, t.task_id, t.file_path, t.code, "python", 0,
      build_chain_reasoning devCache qaCache t.task_id⟩),
   "feat: implement plan " ++ plan_id.take 8 ++ " (QA approved)",
   false⟩

/-- The QA feedback text built by `_retry_task` (line 217). -/
def qa_feedback_text (issues : List String) : String :=
  "Previous QA issues to fix:\n" ++ joinSep "\n" (issues.map (fun i => "- " ++ i))

/-- The `task.assigned` payload republished by `_retry_task`
(lines 213-231): same `task_id`, feedback embedded in the description. -/
def retry_task_payload (orig : CodeGeneratedPayload) (issues : List String) : TaskAssignedPayload :=
  let feedback := qa_feedback_text issues
  ⟨orig.plan_id,
   ⟨orig.task_id,
    "Fix the following issues in " ++ orig.file_path ++ ":\n" ++ feedback,
    orig.file_path, orig.language⟩,
   feedback⟩

/-- Result of one `_handle_code_review` run: the events published on the
bus, the task table afterwards, and the two reasoning caches afterwards. -/
structure HandleOutcome where
  events : List QAEvent
  store : List TaskState
  devCache : String → String
  qaCache : String → String

/-- `_handle_code_review` (lines 122-210), after the review `result` has
been computed (pass 1 static lint or pass 2 LLM review).  On pass: publish
`qa.passed`, set the task `qa_passed`, and run the plan-readiness barrier.
On fail with `qa_attempt < max_qa_retries`: republish `task.assigned` with
feedback via `_retry_task`, which sets the task `qa_retry` with
`qa_attempt + 1`.  Otherwise: publish one `qa.failed` and set the task
`qa_failed`. -/
def handle_code_review (max_qa_retries : Nat)
    (devCache qaCache : String → String) (store : List TaskState)
    (payload : CodeGeneratedPayload) (result : ReviewResult) : HandleOutcome :=
  let devC := cacheInsert devCache payload.task_id payload.reasoning
  let qaC := cacheInsert qaCache payload.task_id result.reasoning
  let qa_payload : QAResultPayload :=
    ⟨payload.plan_id, payload.task_id, result.passed, result.issues,
     payload.code, payload.file_path, payload.qa_attempt, result.reasoning⟩
  if result.passed then
    let store' := update_task_state store payload.task_id payload.plan_id "qa_passed" none
    let all_tasks := store'.filter (fun t => t.plan_id == payload.plan_id)
    match check_plan_ready_for_pr devC qaC payload.plan_id all_tasks with
    | some pr => ⟨[.qa_passed qa_payload, .pr_requested pr], store', devC, qaC⟩
    | none => ⟨[.qa_passed qa_payload], store', devC, qaC⟩
  else if payload.qa_attempt < max_qa_retries then
    ⟨[.task_assigned (retry_task_payload payload result.issues)],
     update_task_state store payload.task_id payload.plan_id "qa_retry"
       (some (payload.qa_attempt + 1)),
     devC, qaC⟩
  else
    ⟨[.qa_failed qa_payload],
     update_task_state store payload.task_id payload.plan_id "qa_failed" none,
     devC, qaC⟩

/-- A sequence of passing QA reviews processed one at a time (QoS
prefetch 1): each element is the `code.generated` payload reviewed and the
(passing) review result. -/
def run_qa_passes (max_qa_retries : Nat) (devCache qaCache : String → String)
    (store : List TaskState) :
    List (CodeGeneratedPayload × ReviewResult) → HandleOutcome
  | [] => ⟨[], store, devCache, qaCache⟩
  | (p, r) :: rest =>
      let h := handle_code_review max_qa_retries devCache qaCache store p r
      let h' := run_qa_passes max_qa_retries h.devCache h.qaCache h.store rest
      ⟨h.events ++ h'.events, h'.store, h'.devCache, h'.qaCache⟩

/-- The `pr.requested` payloads among a list of published events. -/
def prEmissions (events : List QAEvent) : List PRRequestedPayload :=
  events.filterMap (fun e => match e with | .pr_requested p => some p | _ => none)

/-- The `task.assigned` payloads among a list of published events. -/
def taskAssignedEmissions (events : List QAEvent) : List TaskAssignedPayload :=
  events.filterMap (fun e => match e with | .task_assigned p => some p | _ => none)

/-! ### Security scanner (`services/security_service`)

`SECURITY_RULES` (`config.py`, lines 8-47) is a fixed catalogue of named
compiled regular expressions.  The small matcher below interprets each
pattern: a pattern is an optional leading word boundary (`\b`) followed by
a sequence of case-sensitive or case-insensitive literals, literal
alternations, and bounded character-class repetitions — which covers every
pattern in the catalogue.  `Pattern.search` scans every position like
`re.Pattern.search`.
-/

/-- One regex token: a literal, an alternation of literals, or a
character-class repetition `{min,max}` (`max = none` means unbounded).
`ci` selects case-insensitive matching (`(?i)`). -/
inductive RTok where
  | lit (ci : Bool) (s : List Char) : RTok
  | alts (ci : Bool) (xs : List (List Char)) : RTok
  | cls (f : Char → Bool) (mn : Nat) (mx : Option Nat) : RTok

/-- Character comparison, optionally case-insensitive. -/
def chEq (ci : Bool) (p c : Char) : Bool :=
  if ci then p.toLower == c.toLower else p == c

/-- Match a literal prefix, returning the remaining input. -/
def litPrefix (ci : Bool) : List Char → List Char → Option (List Char)
  | [], cs => some cs
  | _ :: _, [] => none
  | p :: ps, c :: cs => if chEq ci p c then litPrefix ci ps cs else none

/-- Length of the maximal prefix satisfying `f`. -/
def countWhile (f : Char → Bool) : List Char → Nat
  | [] => 0
  | c :: cs => if f c then countWhile f cs + 1 else 0

/-- Match a token sequence at the start of the input (with backtracking
over class repetition counts and alternation branches). -/
def matchToks : List RTok → List Char → Bool
  | [], _ => true
  | .lit ci s :: ts, cs =>
      match litPrefix ci s cs with
      | some rest => matchToks ts rest
      | none => false
  | .alts ci xs :: ts, cs =>
      xs.any (fun s =>
        match litPrefix ci s cs with
        | some rest => matchToks ts rest
        | none => false)
  | .cls f mn mx :: ts, cs =>
      let avail := countWhile f cs
      let hi := match mx with | none => avail | some m => min m avail
      (List.range (hi + 1)).any (fun k => decide (mn ≤ k) && matchToks ts (cs.drop k))

/-- Python `\w`: word character (ASCII). -/
def wordChar (c : Char) : Bool := c.isAlphanum || c == '_'

/-- Word-boundary check for patterns beginning with `\b` followed by a
word character: the previous character, if any, is not a word character. -/
def boundaryOk (startB : Bool) (prev : Option Char) : Bool :=
  !startB || !(match prev with | some c => wordChar c | none => false)

/-- Scan every start position (`re.search`), tracking the previous
character for the leading word boundary. -/
def searchAux (startB : Bool) (toks : List RTok) : Option Char → List Char → Bool
  | prev, [] => boundaryOk startB prev && matchToks toks []
  | prev, c :: rest =>
      (boundaryOk startB prev && matchToks toks (c :: rest)) ||
      searchAux startB toks (some c) rest

/-- A compiled pattern: optional leading `\b`, then tokens. -/
structure Pattern where
  startB : Bool
  toks : List RTok

/-- `re.Pattern.search(code)` as a Boolean. -/
def Pattern.search (p : Pattern) (code : String) : Bool :=
  searchAux p.startB p.toks none code.data

/-- Python `\s` (ASCII). -/
def wsChar (c : Char) : Bool := pySpace c

/-- Quote class `["']`. -/
def quoteChar (c : Char) : Bool := c == '"' || c == '\''

/-- Secret-value class `[A-Za-z0-9_\-]`. -/
def secretChar (c : Char) : Bool := c.isAlphanum || c == '_' || c == '-'

/-- Any character except a newline (regex `.`). -/
def anyNoNl (c : Char) : Bool := c != '\n'

/-- `\s*` -/
def wsStar : RTok := .cls wsChar 0 none

/-- A single quote character. -/
def quote1 : RTok := .cls quoteChar 1 (some 1)

/-- `SECURITY_RULES` (`services/security_service/config.py`, lines 8-47):
the fixed ordered catalogue of `(rule_name, pattern)` pairs. -/
def SECURITY_RULES : List (String × Pattern) :=
  [("hardcoded_api_key",
    ⟨false, [.alts true ["api_key".data, "apikey".data], wsStar, .lit false "=".data, wsStar,
             quote1, .cls secretChar 16 none, quote1]⟩),
   ("hardcoded_password",
    ⟨false, [.alts true ["password".data, "passwd".data, "pwd".data], wsStar, .lit false "=".data,
             wsStar, quote1, .cls (fun c => !quoteChar c) 4 none, quote1]⟩),
   ("hardcoded_token",
    ⟨false, [.alts true ["token".data, "secret".data], wsStar, .lit false "=".data, wsStar,
             quote1, .cls secretChar 16 none, quote1]⟩),
   ("dangerous_eval",
    ⟨true, [.lit false "eval".data, wsStar, .lit false "(".data]⟩),
   ("dangerous_exec",
    ⟨true, [.lit false "exec".data, wsStar, .lit false "(".data]⟩),
   ("pickle_deserialize",
    ⟨true, [.lit false "pickle.loads".data, wsStar, .lit false "(".data]⟩),
   ("marshal_deserialize",
    ⟨true, [.lit false "marshal.loads".data, wsStar, .lit false "(".data]⟩),
   ("path_traversal",
    ⟨false, [.lit false "../".data]⟩),
   ("shell_injection_os",
    ⟨true, [.lit false "os.system".data, wsStar, .lit false "(".data]⟩),
   ("shell_injection_subprocess",
    ⟨true, [.lit false "subprocess.".data, .alts false ["call".data, "Popen".data, "run".data],
            wsStar, .lit false "(".data, .cls anyNoNl 0 none, .lit false "shell".data, wsStar,
            .lit false "=".data, wsStar, .lit false "True".data]⟩),
   ("sql_injection_risk",
    ⟨false, [.alts true ["execute".data, "executemany".data], wsStar, .lit false "(".data,
             wsStar, quote1, .cls anyNoNl 0 none, .lit true "%s".data]⟩),
   ("java_runtime_exec",
    ⟨false, [.lit false "Runtime.getRuntime().exec".data, wsStar, .lit false "(".data]⟩),
   ("java_processbuilder_exec",
    ⟨false, [.lit false "new".data, .cls wsChar 1 none, .lit false "ProcessBuilder".data,
             wsStar, .lit false "(".data]⟩),
   ("node_child_process_exec",
    ⟨false, [.lit false "child_process.".data, .alts false ["exec".data, "execSync".data],
             wsStar, .lit false "(".data]⟩),
   ("sql_concat_plus",
    ⟨false, [.lit false "\"".data,
             .alts true ["SELECT".data, "UPDATE".data, "DELETE".data, "INSERT".data],
             .cls (fun c => c != '"') 0 none, .lit false "\"".data, wsStar,
             .lit false "+".data, wsStar, .cls wordChar 1 none]⟩),
   ("flask_debug_true",
    ⟨true, [.lit false "app.run(".data, .cls (fun c => c != ')') 0 none, .lit false "debug".data,
            wsStar, .lit false "=".data, wsStar, .lit false "True".data]⟩),
   ("django_debug_true",
    ⟨true, [.lit false "DEBUG".data, wsStar, .lit false "=".data, wsStar, .lit false "True".data]⟩),
   ("cors_allow_all_header",
    ⟨false, [.lit false "Access-Control-Allow-Origin".data, .cls quoteChar 0 (some 1), wsStar,
             .cls (fun c => c == ':' || c == '=') 1 (some 1), wsStar,
             .cls (fun c => c == '"' || c == '*') 1 (some 1), quote1]⟩),
   ("express_cors_all",
    ⟨false, [.lit false "cors(".data, wsStar, .lit false "\x7b".data, wsStar,
             .lit false "origin".data, wsStar, .lit false ":".data, wsStar,
             quote1, .lit false "*".data, quote1]⟩)]

/-- One file entry of a `pr.requested` payload, as read by the scanner
(`file_path`, `code`, and the upstream reasoning chain). -/
structure FileEntry where
  file_path : String
  code : String
  reasoning : String
deriving DecidableEq

/-- The scanner's result (`ScanResult`). -/
structure ScanResult where
  approved : Bool
  violations : List String
  files_scanned : Nat
  reasoning : String
deriving DecidableEq

/-- The violation message for a matched rule
(`f"[{file_path}] Rule '{rule_name}': pattern matched"`). -/
def violation_msg (file_path rule_name : String) : String :=
  "[" ++ file_path ++ "] Rule '" ++ rule_name ++ "': pattern matched"

/-- `_scan_single_file` (lines 139-147): try every rule of the catalogue
in order against the file's code. -/
def scan_single_file (rules : List (String × Pattern)) (file_path code : String) : List String :=
  match rules with
  | [] => []
  | (rule_name, pat) :: rest =>
      (if pat.search code then [violation_msg file_path rule_name] else []) ++
      scan_single_file rest file_path code

/-- The file loop of `scan_files` (lines 48-56): files with empty code are
skipped, the others are scanned in input order, accumulating violations
and the scanned-file count. -/
def scan_files_go : List FileEntry → List String → Nat → List String × Nat
  | [], acc, n => (acc, n)
  | f :: fs, acc, n =>
      if f.code = "" then scan_files_go fs acc n
      else scan_files_go fs (acc ++ scan_single_file SECURITY_RULES f.file_path f.code) (n + 1)

/-- `_build_pipeline_conclusion` (lines 87-136): the final pipeline
summary referencing each file's upstream reasoning chain. -/
def build_pipeline_conclusion (files : List FileEntry) (files_scanned rules_checked : Nat)
    (approved : Bool) (violations : List String) : String :=
  let fileLines := files.flatMap (fun f =>
    if f.code = "" then []
    else
      let prior := pyStrip f.reasoning
      if prior != "" then
        ["📄 " ++ f.file_path] ++ (pySplitlines prior).map (fun l => "   " ++ l) ++ [""]
      else [])
  let header := ["=== Pipeline Agent Chain ===", ""] ++ fileLines ++
    ["=== Security Analysis ===", "",
     "Scanned " ++ natRepr files_scanned ++ " file(s) against " ++ natRepr rules_checked ++
       " security rules (hardcoded secrets, dangerous functions, path traversal, shell/SQL injection)."]
  let tail :=
    if approved then
      ["", "✅ CONCLUSION: All files passed the full agent pipeline " ++
        "(Planning → Development → QA → Security). " ++
        "No violations found. Code is approved for human review and deployment."]
    else
      ["", "❌ CONCLUSION: " ++ natRepr violations.length ++ " security violation(s) detected. " ++
        "Deployment blocked pending remediation:"] ++
      violations.map (fun v => "   • " ++ v)
  joinSep "\n" (header ++ tail)

/-- `scan_files` (lines 33-84): scan all files, approve exactly when no
violation was found, and compose the pipeline conclusion. -/
def scan_files (files : List FileEntry) : ScanResult :=
  let vn := scan_files_go files [] 0
  let approved := vn.1.isEmpty
  ⟨approved, vn.1, vn.2,
   build_pipeline_conclusion files vn.2 SECURITY_RULES.length approved vn.1⟩

/-- The `(file_path, rule_name)` provenance of each violation, in emission
order (same traversal as `scan_files`). -/
def violation_pairs (files : List FileEntry) : List (String × String) :=
  files.flatMap (fun f =>
    if f.code = "" then []
    else (SECURITY_RULES.filter (fun r => r.2.search f.code)).map (fun r => (f.file_path, r.1)))

/-- Strict lexicographic comparison of character lists by code point. -/
def strLtB : List Char → List Char → Bool
  | [], [] => false
  | [], _ :: _ => true
  | _ :: _, [] => false
  | a :: as, b :: bs =>
      if a.toNat < b.toNat then true
      else if b.toNat < a.toNat then false
      else strLtB as bs

/-- Lexicographic comparison of `(file_path, rule_name)` pairs. -/
def pairLexLe (a b : String × String) : Bool :=
  strLtB a.1.data b.1.data ||
    (a.1 == b.1 && (strLtB a.2.data b.2.data || a.2 == b.2))

/-- Whether a pair list is sorted by `(file_path, rule_name)`. -/
def pairsSorted : List (String × String) → Bool
  | [] => true
  | [_] => true
  | a :: b :: rest => pairLexLe a b && pairsSorted (b :: rest)

/-! ### Memory store: event persistence and semantic indexing
(`services/memory_service/store.py`)

`store.py`, the gateway, the planner and the replanner reference enum
members (`PIPELINE_CONCLUSION`, `PLAN_REVISION_SUGGESTED`,
`PLAN_REVISION_CONFIRMED`, `PR_PENDING_APPROVAL`, `PR_HUMAN_APPROVED`,
`PR_HUMAN_REJECTED`, `METRICS_TOKENS_USED`) that the
`shared/contracts/events.py` revision in the tree does not declare.
-/

/-- Modelled from the spec: the full 19-member event-type enum of §6,
the later, richer revision of `shared/contracts/events.py` that the
consumers in the tree are written against but which is absent from the
tree. -/
inductive EventTypeFull where
  | PLAN_REQUESTED
  | PLAN_CREATED
  | PLAN_REVISION_SUGGESTED
  | PLAN_REVISION_CONFIRMED
  | TASK_ASSIGNED
  | CODE_GENERATED
  | QA_PASSED
  | QA_FAILED
  | PR_REQUESTED
  | SECURITY_APPROVED
  | SECURITY_BLOCKED
  | PR_PENDING_APPROVAL
  | PR_HUMAN_APPROVED
  | PR_HUMAN_REJECTED
  | PR_CREATED
  | PIPELINE_CONCLUSION
  | MEMORY_STORE
  | MEMORY_QUERY
  | METRICS_TOKENS_USED
deriving DecidableEq

/-- Modelled from the spec: the string values of the full enum (§6). -/
def EventTypeFull.value : EventTypeFull → String
  | .PLAN_REQUESTED => "plan.requested"
  | .PLAN_CREATED => "plan.created"
  | .PLAN_REVISION_SUGGESTED => "plan.revision_suggested"
  | .PLAN_REVISION_CONFIRMED => "plan.revision_confirmed"
  | .TASK_ASSIGNED => "task.assigned"
  | .CODE_GENERATED => "code.generated"
  | .QA_PASSED => "qa.passed"
  | .QA_FAILED => "qa.failed"
  | .PR_REQUESTED => "pr.requested"
  | .SECURITY_APPROVED => "security.approved"
  | .SECURITY_BLOCKED => "security.blocked"
  | .PR_PENDING_APPROVAL => "pr.pending_approval"
  | .PR_HUMAN_APPROVED => "pr.human_approved"
  | .PR_HUMAN_REJECTED => "pr.human_rejected"
  | .PR_CREATED => "pr.created"
  | .PIPELINE_CONCLUSION => "pipeline.conclusion"
  | .MEMORY_STORE => "memory.store"
  | .MEMORY_QUERY => "memory.query"
  | .METRICS_TOKENS_USED => "metrics.tokens_used"

/-- An event envelope as received by the memory service (the enum being
the full one its code dereferences). -/
structure FullEvent where
  event_id : String
  event_type : EventTypeFull
  producer : String
  timestamp : String
  idempotency_key : String
  payload : Json

/-- Field lookup in an object payload (`payload.get(key)`). -/
def Json.lookup (p : Json) (k : String) : Option Json :=
  match p with
  | .obj fs => (fs.find? (fun q => q.1 == k)).map (fun q => q.2)
  | _ => none

/-- Python `str(v)` for the payload values the indexer renders (strings
are returned as-is; other values by their serialized form). -/
def pyStr : Json → String
  | .str s => s
  | .bool true => "True"
  | .bool false => "False"
  | .null => "None"
  | .num i => intRepr i
  | v => Json.dumps v

/-- `str(payload.get(k, dflt))`. -/
def getStrField (p : Json) (k : String) (dflt : String) : String :=
  match p.lookup k with
  | some v => pyStr v
  | none => dflt

/-- `payload.get(k) or []` for list-valued fields, as the list of
rendered elements (an absent or non-list value is falsy, like the empty
list). -/
def getListField (p : Json) (k : String) : List String :=
  match p.lookup k with
  | some (.arr xs) => xs.map pyStr
  | _ => []

/-- Python truthiness of a payload value. -/
def jsonTruthy : Json → Bool
  | .null => false
  | .bool b => b
  | .num i => i != 0
  | .str s => s != ""
  | .arr xs => !xs.isEmpty
  | .obj fs => !fs.isEmpty

/-- `bool(payload.get("approved", True))`. -/
def getBoolField (p : Json) (k : String) (dflt : Bool) : Bool :=
  match p.lookup k with
  | some v => jsonTruthy v
  | none => dflt

/-- `MemoryStore._event_to_index_text` (lines 329-380): map an event to
`(text, importance, impact, extra_payload)`.  Only `plan.created`,
`pipeline.conclusion`, `qa.failed`, `security.blocked`, `qa.passed` and
`security.approved` produce text; every other type returns the empty text
and is therefore not indexed. -/
def event_to_index_text (e : FullEvent) : String × ℚ × ℚ × List (String × Json) :=
  let payload := e.payload
  match e.event_type with
  | .PLAN_CREATED =>
      let original := pyStrip (getStrField payload "original_prompt" "")
      let reasoning := pyStrip (getStrField payload "reasoning" "")
      (joinSep "\n" ["PLAN_CREATED", "Original prompt: " ++ original,
                     "Planner reasoning: " ++ reasoning],
       9/10, 7/10, [])
  | .PIPELINE_CONCLUSION =>
      let conclusion := pyStrip (getStrField payload "conclusion_text" "")
      let files_changed := getListField payload "files_changed"
      (joinSep "\n" ["PIPELINE_CONCLUSION", "Conclusion: " ++ conclusion,
                     "Files changed: " ++ joinSep ", " files_changed],
       95/100, 1, [("approved", .bool (getBoolField payload "approved" true))])
  | .QA_FAILED =>
      let reasoning := pyStrip (getStrField payload "reasoning" "")
      let issues :=
        let is := getListField payload "issues"
        if !is.isEmpty then is else getListField payload "violations"
      (joinSep "\n" [EventTypeFull.value e.event_type, "Reasoning: " ++ reasoning,
                     "Issues: " ++ joinSep ", " issues],
       8/10, 9/10, [])
  | .SECURITY_BLOCKED =>
      let reasoning := pyStrip (getStrField payload "reasoning" "")
      let issues :=
        let is := getListField payload "issues"
        if !is.isEmpty then is else getListField payload "violations"
      (joinSep "\n" [EventTypeFull.value e.event_type, "Reasoning: " ++ reasoning,
                     "Issues: " ++ joinSep ", " issues],
       8/10, 9/10, [])
  | .QA_PASSED =>
      let reasoning := pyStrip (getStrField payload "reasoning" "")
      (joinSep "\n" [EventTypeFull.value e.event_type, "Reasoning: " ++ reasoning],
       7/10, 8/10, [])
  | .SECURITY_APPROVED =>
      let reasoning := pyStrip (getStrField payload "reasoning" "")
      (joinSep "\n" [EventTypeFull.value e.event_type, "Reasoning: " ++ reasoning],
       7/10, 8/10, [])
  | _ => ("", 0, 0, [])

/-- A point upserted into the vector store, with the payload fields of
`_index_event_for_search` (lines 303-327). -/
structure IndexedPoint where
  point_id : String
  text : String
  event_type : String
  producer : String
  plan_id : String
  created_at : String
  importance : ℚ
  impact : ℚ
  access_count : Nat
  extra : List (String × Json)

/-- `MemoryStore._index_event_for_search` (lines 303-327): skip events
whose index text is blank, otherwise build the point (the embedding vector
itself is external I/O and not part of the point payload). -/
def index_event_for_search (e : FullEvent) : Option IndexedPoint :=
  let r := event_to_index_text e
  if pyStrip r.1 = "" then none
  else
    some ⟨e.event_id, r.1, e.event_type.value, e.producer,
          getStrField e.payload "plan_id" "", e.timestamp, r.2.1, r.2.2.1, 0, r.2.2.2⟩

/-- A row of the event log table. -/
structure EventRow where
  event_id : String
  event_type : String
  producer : String
  idempotency_key : String
  payload : String
  plan_id : String

/-- Result of `store_event`: the returned Boolean, the event log
afterwards, and the point indexed into the vector store (if any). -/
structure StoreEventResult where
  stored : Bool
  log : List EventRow
  indexed : Option IndexedPoint

/-- `MemoryStore.store_event` (lines 80-106): return `False` on a
duplicate `event_id`; otherwise insert the row and then try to index the
event, catching any indexing failure (`index_fails` abstracts an
exception anywhere inside `_index_event_for_search`) so that the store
still reports success. -/
def store_event (log : List EventRow) (e : FullEvent) (index_fails : Bool) : StoreEventResult :=
  if log.any (fun r => r.event_id == e.event_id) then
    ⟨false, log, none⟩
  else
    let row : EventRow :=
      ⟨e.event_id, e.event_type.value, e.producer, e.idempotency_key,
       Json.dumps e.payload, getStrField e.payload "plan_id" ""⟩
    let indexed := if index_fails then none else index_event_for_search e
    ⟨true, log ++ [row], indexed⟩

/-- The six event types the indexing policy selects. -/
def indexedTypes : List EventTypeFull :=
  [.PLAN_CREATED, .PIPELINE_CONCLUSION, .QA_FAILED, .SECURITY_BLOCKED,
   .QA_PASSED, .SECURITY_APPROVED]

/-! ## Helper lemmas -/

theorem stringDataInj {s t : String} (h : s.data = t.data) : s = t := by
  cases s
  cases t
  exact congrArg String.mk h

theorem decDigitsFuel_lt10 : ∀ (fuel n : Nat), ∀ d ∈ decDigitsFuel fuel n, d < 10 := by
  intro fuel
  induction fuel with
  | zero => intro n d hd; simp [decDigitsFuel] at hd
  | succ fuel ih =>
      intro n d hd
      by_cases hn : n = 0
      · simp [decDigitsFuel, hn] at hd
      · simp [decDigitsFuel, hn] at hd
        rcases hd with h | h
        · omega
        · exact ih _ _ h

theorem decDigitsFuel_ofDigits : ∀ (fuel n : Nat), n ≤ fuel →
    Nat.ofDigits 10 (decDigitsFuel fuel n) = n := by
  intro fuel
  induction fuel with
  | zero =>
      intro n hn
      interval_cases n
      simp [decDigitsFuel]
  | succ fuel ih =>
      intro n hn
      by_cases h0 : n = 0
      · simp [decDigitsFuel, h0]
      · have hdiv : n / 10 ≤ fuel := by
          have := Nat.div_lt_self (Nat.pos_of_ne_zero h0) (by norm_num : 1 < 10)
          omega
        simp [decDigitsFuel, h0, Nat.ofDigits_cons, ih _ hdiv]
        omega

theorem decDigits_ofDigits (n : Nat) : Nat.ofDigits 10 (decDigits n) = n :=
  decDigitsFuel_ofDigits n n le_rfl

theorem decDigits_lt10 (n : Nat) : ∀ d ∈ decDigits n, d < 10 :=
  decDigitsFuel_lt10 n n

theorem digitChar_inj_lt10 :
    ∀ d, d < 10 → ∀ e, e < 10 → Nat.digitChar d = Nat.digitChar e → d = e := by
  decide

theorem map_digitChar_inj : ∀ (l1 l2 : List Nat), (∀ x ∈ l1, x < 10) → (∀ x ∈ l2, x < 10) →
    l1.map Nat.digitChar = l2.map Nat.digitChar → l1 = l2 := by
  intro l1
  induction l1 with
  | nil => intro l2 _ _ h; cases l2 <;> simp_all
  | cons a l1 ih =>
      intro l2 h1 h2 h
      cases l2 with
      | nil => simp at h
      | cons b l2 =>
          simp only [List.map_cons, List.cons.injEq] at h
          have ha : a = b :=
            digitChar_inj_lt10 a (h1 a (by simp)) b (h2 b (by simp)) h.1
          have : l1 = l2 := ih l2 (fun x hx => h1 x (by simp [hx]))
            (fun x hx => h2 x (by simp [hx])) h.2
          simp [ha, this]

theorem natRepr_data (n : Nat) (hn : n ≠ 0) :
    (natRepr n).data = ((decDigits n).map Nat.digitChar).reverse := by
  unfold natRepr
  rw [if_neg hn]

theorem natRepr_eq_zero_str (n : Nat) (hn : n ≠ 0) (h : natRepr n = "0") : False := by
  have hd : ((decDigits n).map Nat.digitChar).reverse = ['0'] := by
    have := congrArg String.data h
    rw [natRepr_data n hn] at this
    exact this
  have hmap : (decDigits n).map Nat.digitChar = ['0'] := by
    have := congrArg List.reverse hd
    simpa using this
  have hdig : decDigits n = [0] :=
    map_digitChar_inj _ _ (decDigits_lt10 n) (by norm_num) (by simpa using hmap)
  have h0 := decDigits_ofDigits n
  rw [hdig] at h0
  simp [Nat.ofDigits] at h0
  exact hn h0.symm

theorem natRepr_injective : ∀ a b : Nat, natRepr a = natRepr b → a = b := by
  intro a b h
  by_cases ha : a = 0 <;> by_cases hb : b = 0
  · omega
  · exfalso
    apply natRepr_eq_zero_str b hb
    rw [← h, ha]
    simp [natRepr]
  · exfalso
    apply natRepr_eq_zero_str a ha
    rw [h, hb]
    simp [natRepr]
  · have hd := congrArg String.data h
    rw [natRepr_data a ha, natRepr_data b hb] at hd
    have hrev := congrArg List.reverse hd
    simp only [List.reverse_reverse] at hrev
    have hdig : decDigits a = decDigits b :=
      map_digitChar_inj _ _ (decDigits_lt10 a) (decDigits_lt10 b) hrev
    have h1 := decDigits_ofDigits a
    have h2 := decDigits_ofDigits b
    rw [hdig] at h1
    omega

theorem effective_key_zero (idem : String) : effective_key idem 0 = idem := by
  simp [effective_key]

theorem effective_key_data (idem : String) (k : Nat) (hk : k ≠ 0) :
    (effective_key idem k).data = (idem.data ++ ":retry:".data) ++ (natRepr k).data := by
  simp only [effective_key, if_neg hk]
  rw [String.data_append, String.data_append]

theorem effective_key_injective (idem : String) :
    ∀ i j : Nat, effective_key idem i = effective_key idem j → i = j := by
  have hsev : (":retry:".data).length = 7 := rfl
  intro i j h
  by_cases hi : i = 0 <;> by_cases hj : j = 0
  · omega
  · exfalso
    have hd := congrArg String.data h
    rw [hi, effective_key_zero, effective_key_data idem j hj] at hd
    have hlen := congrArg List.length hd
    rw [List.length_append, List.length_append] at hlen
    omega
  · exfalso
    have hd := congrArg String.data h
    rw [hj, effective_key_zero, effective_key_data idem i hi] at hd
    have hlen := congrArg List.length hd
    rw [List.length_append, List.length_append] at hlen
    omega
  · have hd := congrArg String.data h
    rw [effective_key_data idem i hi, effective_key_data idem j hj] at hd
    have h4 := List.append_cancel_left hd
    exact natRepr_injective i j (stringDataInj h4)

theorem insertByKey_perm {α : Type} (p : String × α) :
    ∀ l : List (String × α), (insertByKey p l).Perm (p :: l) := by
  intro l
  induction l with
  | nil => simp [insertByKey]
  | cons q qs ih =>
      simp only [insertByKey]
      by_cases hle : p.1 ≤ q.1
      · simp [hle]
      · rw [if_neg hle]
        exact (ih.cons q).trans (List.Perm.swap p q qs)

theorem sortByKey_perm {α : Type} : ∀ l : List (String × α), (sortByKey l).Perm l := by
  intro l
  induction l with
  | nil => simp [sortByKey]
  | cons p ps ih =>
      simp only [sortByKey]
      exact (insertByKey_perm p _).trans (ih.cons p)

theorem insertByKey_sorted {α : Type} (p : String × α) (l : List (String × α))
    (hl : l.Pairwise (fun a b => a.1 ≤ b.1)) :
    (insertByKey p l).Pairwise (fun a b => a.1 ≤ b.1) := by
  induction l with
  | nil => simp [insertByKey]
  | cons q qs ih =>
      simp only [insertByKey]
      rcases List.pairwise_cons.mp hl with ⟨hq, hqs⟩
      by_cases hle : p.1 ≤ q.1
      · rw [if_pos hle]
        refine List.pairwise_cons.mpr ⟨?_, hl⟩
        intro a ha
        rcases List.mem_cons.mp ha with rfl | ha
        · exact hle
        · exact le_trans hle (hq a ha)
      · rw [if_neg hle]
        refine List.pairwise_cons.mpr ⟨?_, ih hqs⟩
        intro a ha
        have := (insertByKey_perm p qs).mem_iff.mp ha
        rcases List.mem_cons.mp this with rfl | ha'
        · exact le_of_not_le hle
        · exact hq a ha'

theorem sortByKey_sorted {α : Type} : ∀ l : List (String × α),
    (sortByKey l).Pairwise (fun a b => a.1 ≤ b.1) := by
  intro l
  induction l with
  | nil => simp [sortByKey]
  | cons p ps ih => exact insertByKey_sorted p _ ih

theorem sorted_perm_nodupkeys_eq {α : Type} :
    ∀ (l1 l2 : List (String × α)), l1.Perm l2 →
      l1.Pairwise (fun a b => a.1 ≤ b.1) → l2.Pairwise (fun a b => a.1 ≤ b.1) →
      (l1.map Prod.fst).Nodup → l1 = l2 := by
  intro l1
  induction l1 with
  | nil => intro l2 hp _ _ _; exact (hp.symm.eq_nil).symm
  | cons p l1 ih =>
      intro l2 hp hs1 hs2 hnd
      cases l2 with
      | nil => exact absurd hp.symm (by simp)
      | cons q l2 =>
          rcases List.pairwise_cons.mp hs1 with ⟨hp1, hs1'⟩
          rcases List.pairwise_cons.mp hs2 with ⟨hq1, hs2'⟩
          rw [List.map_cons] at hnd
          rcases List.nodup_cons.mp hnd with ⟨hknotin, hnd'⟩
          have hpq : p = q := by
            have hpmem : p ∈ q :: l2 := hp.mem_iff.mp (by simp)
            rcases List.mem_cons.mp hpmem with rfl | hpl2
            · rfl
            · have hqmem : q ∈ p :: l1 := hp.symm.mem_iff.mp (by simp)
              rcases List.mem_cons.mp hqmem with rfl | hql1
              · rfl
              · exfalso
                have h1 : p.1 ≤ q.1 := hp1 q hql1
                have h2 : q.1 ≤ p.1 := hq1 p hpl2
                have hkey : q.1 = p.1 := le_antisymm h2 h1
                exact hknotin (List.mem_map.mpr ⟨q, hql1, hkey⟩)
          subst hpq
          have hperm' := hp.cons_inv
          have := ih l2 hperm' hs1' hs2' hnd'
          rw [this]

theorem sortByKey_eq_of_perm {α : Type} (l1 l2 : List (String × α))
    (hp : l1.Perm l2) (hnd : (l1.map Prod.fst).Nodup) :
    sortByKey l1 = sortByKey l2 := by
  apply sorted_perm_nodupkeys_eq
  · exact (sortByKey_perm l1).trans (hp.trans (sortByKey_perm l2).symm)
  · exact sortByKey_sorted l1
  · exact sortByKey_sorted l2
  · have : ((sortByKey l1).map Prod.fst).Perm (l1.map Prod.fst) :=
      (sortByKey_perm l1).map Prod.fst
    exact this.nodup_iff.mpr hnd

theorem dumpFields_eq_map (ps : List (String × Json)) :
    Json.dumpFields ps = ps.map (fun p => (p.1, Json.dumps p.2)) := by
  induction ps with
  | nil => simp [Json.dumpFields]
  | cons p ps ih => cases p; simp [Json.dumpFields, ih]

theorem wfList_mem {xs : List Json} (h : Json.wfList xs = true) :
    ∀ x ∈ xs, Json.wf x = true := by
  induction xs with
  | nil => simp
  | cons x xs ih =>
      simp only [Json.wfList, Bool.and_eq_true] at h
      intro y hy
      rcases List.mem_cons.mp hy with rfl | hy
      · exact h.1
      · exact ih h.2 y hy

theorem wfFields_mem {ps : List (String × Json)} (h : Json.wfFields ps = true) :
    ∀ p ∈ ps, Json.wf p.2 = true := by
  induction ps with
  | nil => simp
  | cons p ps ih =>
      cases p with
      | mk k v =>
          simp only [Json.wfFields, Bool.and_eq_true] at h
          intro q hq
          rcases List.mem_cons.mp hq with rfl | hq
          · exact h.1.2
          · exact ih h.2 q hq

theorem wfFields_nodup_keys {ps : List (String × Json)} (h : Json.wfFields ps = true) :
    (ps.map Prod.fst).Nodup := by
  induction ps with
  | nil => simp
  | cons p ps ih =>
      cases p with
      | mk k v =>
          simp only [Json.wfFields, Bool.and_eq_true] at h
          rw [List.map_cons]
          refine List.nodup_cons.mpr ⟨?_, ih h.2⟩
          intro hmem
          rcases List.mem_map.mp hmem with ⟨q, hq, hqk⟩
          have := h.1.1
          rw [List.all_eq_true] at this
          have := this q hq
          simp only [bne_iff_ne, ne_eq] at this
          exact this hqk

mutual

theorem dumps_eq_of_semEq : ∀ {a b : Json}, Json.SemEq a b →
    Json.wf a = true → Json.wf b = true → Json.dumps a = Json.dumps b
  | _, _, .null, _, _ => rfl
  | _, _, .bool _, _, _ => rfl
  | _, _, .num _, _, _ => rfl
  | _, _, .str _, _, _ => rfl
  | _, _, .arr h, wa, wb => by
      simp only [Json.dumps]
      rw [dumpList_eq_of_semEqList h (wfList_mem (by simpa [Json.wf] using wa))
            (wfList_mem (by simpa [Json.wf] using wb))]
  | _, _, .obj hperm hfields, wa, wb => by
      rename_i fs fs' gs
      have wfa : Json.wfFields fs = true := by simpa [Json.wf] using wa
      have wfb : Json.wfFields gs = true := by simpa [Json.wf] using wb
      simp only [Json.dumps]
      have h2 : Json.dumpFields fs' = Json.dumpFields gs :=
        dumpFields_eq_of_semEqFields hfields
          (fun p hp => wfFields_mem wfa p (hperm.mem_iff.mpr hp))
          (wfFields_mem wfb)
      have h1 : (Json.dumpFields fs).Perm (Json.dumpFields fs') := by
        rw [dumpFields_eq_map, dumpFields_eq_map]
        exact hperm.map _
      have hnd : ((Json.dumpFields fs).map Prod.fst).Nodup := by
        rw [dumpFields_eq_map, List.map_map]
        have : (Prod.fst ∘ fun p : String × Json => (p.1, Json.dumps p.2)) = Prod.fst := rfl
        rw [this]
        exact wfFields_nodup_keys wfa
      rw [sortByKey_eq_of_perm _ _ (h2 ▸ h1) hnd]

theorem dumpList_eq_of_semEqList : ∀ {xs ys : List Json}, Json.SemEqList xs ys →
    (∀ x ∈ xs, Json.wf x = true) → (∀ y ∈ ys, Json.wf y = true) →
    Json.dumpList xs = Json.dumpList ys
  | _, _, .nil, _, _ => rfl
  | x :: xs, y :: ys, .cons h hs, wx, wy => by
      simp only [Json.dumpList]
      rw [dumps_eq_of_semEq h (wx x (by simp)) (wy y (by simp)),
          dumpList_eq_of_semEqList hs (fun a ha => wx a (by simp [ha]))
            (fun b hb => wy b (by simp [hb]))]

theorem dumpFields_eq_of_semEqFields : ∀ {ps qs : List (String × Json)},
    Json.SemEqFields ps qs →
    (∀ p ∈ ps, Json.wf p.2 = true) → (∀ q ∈ qs, Json.wf q.2 = true) →
    Json.dumpFields ps = Json.dumpFields qs
  | _, _, .nil, _, _ => rfl
  | (k, v) :: ps, (_, w) :: qs, .cons h hs, wp, wq => by
      simp only [Json.dumpFields]
      rw [dumps_eq_of_semEq h (wp (k, v) (by simp)) (wq (k, w) (by simp)),
          dumpFields_eq_of_semEqFields hs (fun a ha => wp a (by simp [ha]))
            (fun b hb => wq b (by simp [hb]))]

end

/-! ## Claim C1 -/

/-- C1 (amended): two envelopes whose `(event_type, payload)` are
semantically equal (well-formed payloads equal as Python values, i.e. up
to object-field order) have identical `idempotency_key`; envelopes whose
generated `event_id` inputs differ have different `event_id` fields; and
the key equals the SHA-256 of the event-type string, a `":"` separator,
and the SHA-256 hex digest of the canonical key-sorted JSON of the
payload (not the SHA-256 of the event type concatenated with the
canonical JSON itself, which the counterexample refutes). -/
theorem c1_idempotency_key_amended
    (id1 id2 ts1 ts2 pr1 pr2 : String) (et : EventType) (p1 p2 : Json)
    (hsem : p1.SemEq p2) (hw1 : p1.wf = true) (hw2 : p2.wf = true) (hid : id1 ≠ id2) :
    (mk_base_event id1 et ts1 pr1 p1).idempotency_key =
      (mk_base_event id2 et ts2 pr2 p2).idempotency_key ∧
    (mk_base_event id1 et ts1 pr1 p1).event_id ≠ (mk_base_event id2 et ts2 pr2 p2).event_id ∧
    (mk_base_event id1 et ts1 pr1 p1).idempotency_key =
      sha256Hex (et.value ++ ":" ++ sha256Hex (Json.dumps p1)) := by
  refine ⟨?_, hid, rfl⟩
  simp only [mk_base_event, model_post_init_key, stable_hash,
    dumps_eq_of_semEq hsem hw1 hw2]

/-- C1 witness: the amended theorem at two concrete envelopes whose
payloads hold the same fields in different order. -/
theorem c1_idempotency_key_amended_witness :
    (mk_base_event "evt-1" .PLAN_CREATED "t1" "planner"
        (Json.obj [("a", Json.num 1), ("b", Json.str "x")])).idempotency_key =
      (mk_base_event "evt-2" .PLAN_CREATED "t2" "planner"
        (Json.obj [("b", Json.str "x"), ("a", Json.num 1)])).idempotency_key ∧
    (mk_base_event "evt-1" .PLAN_CREATED "t1" "planner"
        (Json.obj [("a", Json.num 1), ("b", Json.str "x")])).event_id ≠
      (mk_base_event "evt-2" .PLAN_CREATED "t2" "planner"
        (Json.obj [("b", Json.str "x"), ("a", Json.num 1)])).event_id ∧
    (mk_base_event "evt-1" .PLAN_CREATED "t1" "planner"
        (Json.obj [("a", Json.num 1), ("b", Json.str "x")])).idempotency_key =
      sha256Hex (EventType.PLAN_CREATED.value ++ ":" ++
        sha256Hex (Json.dumps (Json.obj [("a", Json.num 1), ("b", Json.str "x")]))) :=
  c1_idempotency_key_amended "evt-1" "evt-2" "t1" "t2" "planner" "planner"
    .PLAN_CREATED _ _
    (Json.SemEq.obj
      (List.Perm.swap ("b", Json.str "x") ("a", Json.num 1) [])
      (Json.SemEqFields.cons (Json.SemEq.str "x")
        (Json.SemEqFields.cons (Json.SemEq.num 1) Json.SemEqFields.nil)))
    (by decide) (by decide) (by decide)

set_option maxRecDepth 1000000 in
/-- C1 counterexample: for the envelope with event type `plan.created`
and payload `{"a": 1}`, the idempotency key is not the hash of the
event-type string concatenated with the canonical JSON of the payload:
the code hashes `event_type + ":" + sha256(canonical_json)`, not
`event_type + canonical_json`. -/
theorem c1_idempotency_key_counterexample :
    spec_claimed_key .PLAN_CREATED (Json.obj [("a", Json.num 1)]) ≠
      (mk_base_event "evt-1" .PLAN_CREATED "2024-01-01T00:00:00+00:00" "planner"
        (Json.obj [("a", Json.num 1)])).idempotency_key := by
  decide

/-! ## Claim C2 -/

theorem run_failing_succ (mr : Nat) (b : ℚ) (fuel : Nat) (seen : List String)
    (idem : String) (rc : Nat) :
    run_failing mr b (fuel + 1) seen idem rc =
      on_message mr b seen idem rc false ::
        (match (on_message mr b seen idem rc false).action with
         | .republish rc' _ => run_failing mr b fuel (on_message mr b seen idem rc false).seen idem rc'
         | _ => []) := rfl

theorem run_failing_spec (max_retries : Nat) (base : ℚ) (idem : String) :
    ∀ (n rc : Nat) (seen : List String),
      rc + n = max_retries → 1 ≤ n →
      (∀ j, rc ≤ j → effective_key idem j ∉ seen) →
      (run_failing max_retries base n seen idem rc).map
          (fun r => (r.invoked, r.settled, r.action)) =
        (List.range' rc n).map (fun i =>
          (true, true,
           if i + 1 < max_retries then
             MsgAction.republish (i + 1) (min (base * 2 ^ i) 32)
           else MsgAction.deadLetter true)) := by
  intro n
  induction n with
  | zero => intro rc seen _ h1; omega
  | succ m ih =>
      intro rc seen hsum _ hfresh
      have hnotin := hfresh rc le_rfl
      cases m with
      | zero =>
          have hlast : ¬ rc < max_retries - 1 := by omega
          have hhead : on_message max_retries base seen idem rc false =
              ⟨true, effective_key idem rc :: seen, .deadLetter true, true⟩ := by
            simp [on_message, if_neg hnotin, if_neg hlast]
          rw [run_failing_succ, hhead]
          have hge : ¬ rc + 1 < max_retries := by omega
          simp [List.range', hge]
      | succ m' =>
          have hretry : rc < max_retries - 1 := by omega
          have hhead : on_message max_retries base seen idem rc false =
              ⟨true, effective_key idem rc :: seen,
               .republish (rc + 1) (min (base * 2 ^ rc) 32), true⟩ := by
            simp [on_message, if_neg hnotin, if_pos hretry]
          rw [run_failing_succ, hhead]
          have hfresh' : ∀ j, rc + 1 ≤ j →
              effective_key idem j ∉ effective_key idem rc :: seen := by
            intro j hj hmem
            rcases List.mem_cons.mp hmem with heq | hmem'
            · have := effective_key_injective idem j rc heq
              omega
            · exact hfresh j (by omega) hmem'
          have hrec := ih (rc + 1) (effective_key idem rc :: seen) (by omega) (by omega) hfresh'
          have hlt : rc + 1 < max_retries := by omega
          simp only [List.map_cons]
          rw [hrec]
          simp [List.range', hlt]

/-- C2: with `max_retries ≥ 1`, a message whose handler fails on every
delivery is handled exactly `max_retries` times; after the delivery with
retry count `i < max_retries - 1` it is republished on the main exchange
with retry-count header `i + 1` after a delay of
`min(retry_delay_base * 2^i, 32)` seconds; the last delivery routes the
message to the dead-letter exchange with the `x-final-failure` header
(whence the queue `dlq.<queue_name>`, bound there to the same routing
keys, receives it), and every delivery is settled without requeue. -/
theorem c2_retry_until_dlq (max_retries : Nat) (base : ℚ) (idem queue_name : String)
    (hmr : 1 ≤ max_retries) :
    ((run_failing max_retries base max_retries [] idem 0).map
        (fun r => (r.invoked, r.settled, r.action)) =
      (List.range max_retries).map (fun i =>
        (true, true,
         if i + 1 < max_retries then
           MsgAction.republish (i + 1) (min (base * 2 ^ i) 32)
         else MsgAction.deadLetter true))) ∧
    (run_failing max_retries base max_retries [] idem 0).length = max_retries ∧
    dlq_name queue_name = "dlq." ++ queue_name := by
  have h := run_failing_spec max_retries base idem max_retries 0 [] (by omega) hmr
    (by intro j _ hmem; simp at hmem)
  rw [List.range_eq_range']
  refine ⟨h, ?_, rfl⟩
  have := congrArg List.length h
  simpa using this

/-- C2 witness: the claim at `max_retries = 3`, `retry_delay_base = 1`:
three handler invocations, republishes with retry counts 1 and 2 after
delays 1 s and 2 s, then dead-lettering with the final-failure header. -/
theorem c2_retry_until_dlq_witness :
    1 ≤ 3 ∧
    (((run_failing 3 1 3 [] "k" 0).map (fun r => (r.invoked, r.settled, r.action)) =
      (List.range 3).map (fun i =>
        (true, true,
         if i + 1 < 3 then
           MsgAction.republish (i + 1) (min (1 * 2 ^ i) 32)
         else MsgAction.deadLetter true))) ∧
     (run_failing 3 1 3 [] "k" 0).length = 3 ∧
     dlq_name "qa_service.code_review" = "dlq." ++ "qa_service.code_review") :=
  ⟨by decide, c2_retry_until_dlq 3 1 "k" "qa_service.code_review" (by decide)⟩

/-! ## Claim C3 -/

/-- C3: publishing the same envelope twice (both deliveries with
retry-count header 0) to a queue with a single idempotency store invokes
the handler exactly once: the first delivery marks the effective key seen
and invokes the handler (whatever its outcome); the second finds the key
already seen, is acknowledged, and does not invoke the handler. -/
theorem c3_duplicate_publish_once (idem : String) (max_retries : Nat) (base : ℚ)
    (handler_ok1 handler_ok2 : Bool) :
    (on_message max_retries base [] idem 0 handler_ok1).invoked = true ∧
    ((on_message max_retries base
        (on_message max_retries base [] idem 0 handler_ok1).seen
        idem 0 handler_ok2).invoked = false ∧
     (on_message max_retries base
        (on_message max_retries base [] idem 0 handler_ok1).seen
        idem 0 handler_ok2).action = .ackSkip ∧
     (on_message max_retries base
        (on_message max_retries base [] idem 0 handler_ok1).seen
        idem 0 handler_ok2).settled = true) := by
  have hstep : (on_message max_retries base [] idem 0 handler_ok1).invoked = true ∧
      (on_message max_retries base [] idem 0 handler_ok1).seen = [effective_key idem 0] := by
    simp only [on_message]
    rw [if_neg (by simp : ¬ (effective_key idem 0 ∈ ([] : List String)))]
    cases handler_ok1 with
    | true => exact ⟨rfl, rfl⟩
    | false =>
        simp only [Bool.false_eq_true, if_false]
        constructor <;> split <;> rfl
  refine ⟨hstep.1, ?_⟩
  rw [hstep.2]
  simp [on_message]

/-! ## Claim C7 -/

/-- C7: the event-type enum declared in `shared/contracts/events.py` is a
closed set of twelve values, not the nineteen listed by the
specification: the seven values `plan.revision_suggested`,
`plan.revision_confirmed`, `pr.pending_approval`, `pr.human_approved`,
`pr.human_rejected`, `pipeline.conclusion` and `metrics.tokens_used` fail
enum validation, although other modules in the tree dereference the
corresponding members (e.g. `EventType.PIPELINE_CONCLUSION` at
`services/memory_service/store.py` line 350 and
`services/meta_planner/main.py` line 235), which raises `AttributeError`
at run time. -/
theorem c7_event_type_enum_gap :
    (∀ t : EventType, t ∈ EventType.all) ∧
    EventType.all.length = 12 ∧
    (∀ t : EventType, t.value ≠ "pipeline.conclusion") ∧
    EventType.fromString? "plan.revision_suggested" = none ∧
    EventType.fromString? "plan.revision_confirmed" = none ∧
    EventType.fromString? "pr.pending_approval" = none ∧
    EventType.fromString? "pr.human_approved" = none ∧
    EventType.fromString? "pr.human_rejected" = none ∧
    EventType.fromString? "pipeline.conclusion" = none ∧
    EventType.fromString? "metrics.tokens_used" = none ∧
    EventType.fromString? "qa.passed" = some .QA_PASSED ∧
    EventTypeFull.PIPELINE_CONCLUSION.value = "pipeline.conclusion" := by
  refine ⟨fun t => by cases t <;> simp [EventType.all], rfl,
    fun t => by cases t <;> simp [EventType.value], ?_, ?_, ?_, ?_, ?_, ?_, ?_, ?_, rfl⟩ <;> decide

/-! ## Claim C9 -/

theorem find_task_update_existing (store : List TaskState)
    (tid pid st fp cd ru : String) (qa : Option Nat)
    (t : TaskState) (hfind : find_task store tid = some t) :
    find_task (update_task store tid pid st fp cd ru qa) tid =
      some { t with
             status := st
             file_path := if fp = "" then t.file_path else fp
             code := if cd = "" then t.code else cd
             repo_url := if ru = "" then t.repo_url else ru
             qa_attempt := qa.getD t.qa_attempt } := by
  unfold update_task
  rw [hfind]
  simp only [Option.isSome_some, if_true]
  unfold find_task at hfind ⊢
  induction store with
  | nil => simp at hfind
  | cons h rest ih =>
      cases hh : (h.task_id == tid) with
      | true =>
          simp only [List.find?_cons, hh] at hfind
          have ht : h = t := by simpa using hfind
          subst ht
          rw [List.map_cons, if_pos hh, List.find?_cons]
          dsimp only
          rw [hh]
      | false =>
          simp only [List.find?_cons, hh] at hfind
          rw [List.map_cons, if_neg (by simp [hh]), List.find?_cons]
          rw [hh]
          exact ih hfind

theorem find_task_update_new (store : List TaskState)
    (tid pid st fp cd ru : String) (qa : Option Nat)
    (hfind : find_task store tid = none) :
    find_task (update_task store tid pid st fp cd ru qa) tid =
      some ⟨tid, pid, st, fp, cd, ru, qa.getD 0⟩ := by
  unfold update_task
  rw [hfind]
  simp only [Option.isSome_none, Bool.false_eq_true, if_false]
  unfold find_task at hfind ⊢
  induction store with
  | nil => simp
  | cons h rest ih =>
      cases hh : (h.task_id == tid) with
      | true => simp [List.find?_cons, hh] at hfind
      | false =>
          simp only [List.find?_cons, hh] at hfind
          rw [List.cons_append, List.find?_cons]
          rw [hh]
          exact ih hfind

/-- C9 (amended): `update_task` is an upsert on the task row keyed by
`task_id`.  For an existing row, `file_path`, `code` and `repo_url` are
preserved whenever the supplied new value is empty; `qa_attempt`
overwrites the stored value whenever it is supplied; but `status` is
always overwritten, even by an empty supplied value (the counterexample
shows the claim's "preserves every field whose new value is empty except
qa_attempt" fails for `status`).  A new row is created when the
`task_id` does not exist, with `qa_attempt` defaulting to 0. -/
theorem c9_update_task_amended (store : List TaskState)
    (tid pid st fp cd ru : String) (qa : Option Nat) :
    (∀ t, find_task store tid = some t →
      find_task (update_task store tid pid st fp cd ru qa) tid =
        some { t with
               status := st
               file_path := if fp = "" then t.file_path else fp
               code := if cd = "" then t.code else cd
               repo_url := if ru = "" then t.repo_url else ru
               qa_attempt := qa.getD t.qa_attempt }) ∧
    (find_task store tid = none →
      find_task (update_task store tid pid st fp cd ru qa) tid =
        some ⟨tid, pid, st, fp, cd, ru, qa.getD 0⟩) :=
  ⟨fun t hfind => find_task_update_existing store tid pid st fp cd ru qa t hfind,
   fun hfind => find_task_update_new store tid pid st fp cd ru qa hfind⟩

/-- C9 witness: the amended theorem at a concrete store: the update with
empty `file_path`/`code`/`repo_url` and supplied `qa_attempt = 2`
preserves the file fields, overwrites the status, and overwrites the
attempt counter. -/
theorem c9_update_task_amended_witness :
    find_task (update_task [⟨"t1", "p1", "completed", "f.py", "print(1)", "git@h:u/r", 1⟩]
        "t1" "p1" "qa_retry" "" "" "" (some 2)) "t1" =
      some ⟨"t1", "p1", "qa_retry", "f.py", "print(1)", "git@h:u/r", 2⟩ := by
  have h := (c9_update_task_amended
      [⟨"t1", "p1", "completed", "f.py", "print(1)", "git@h:u/r", 1⟩]
      "t1" "p1" "qa_retry" "" "" "" (some 2)).1
    ⟨"t1", "p1", "completed", "f.py", "print(1)", "git@h:u/r", 1⟩ (by decide)
  exact h.trans (by decide)

/-- C9 counterexample: updating an existing row with an empty supplied
`status` does not preserve the stored status `"qa_passed"`; the row ends
with the empty status, while the empty `file_path` and `code` are
preserved.  This refutes "preserves every existing field whose supplied
new value is empty, with the single exception of `qa_attempt`". -/
theorem c9_update_task_counterexample :
    update_task (update_task [] "t1" "p1" "qa_passed" "f.py" "c" "" none)
        "t1" "p1" "" "" "" "" none =
      [⟨"t1", "p1", "", "f.py", "c", "", 0⟩] ∧ ("" : String) ≠ "qa_passed" := by
  decide

/-! ## Claim C10 -/

theorem parse_line_passed_eq (st : ParseState) (line : String)
    (h : "VERDICT:".data.isPrefixOf (pyUpper (pyStrip line)).data = false) :
    (parse_line st line).passed = st.passed := by
  simp only [parse_line]
  split_ifs <;> simp_all

theorem foldl_parse_passed (lines : List String) :
    ∀ st : ParseState,
      (∀ l ∈ lines, "VERDICT:".data.isPrefixOf (pyUpper (pyStrip l)).data = false) →
      (lines.foldl parse_line st).passed = st.passed := by
  induction lines with
  | nil => intro st _; rfl
  | cons l rest ih =>
      intro st h
      rw [List.foldl_cons, ih _ (fun x hx => h x (by simp [hx])),
        parse_line_passed_eq st l (h l (by simp))]

/-- C10 (amended): `_parse_review_response` is total and fails open: for
every input string none of whose lines, after stripping surrounding
whitespace and upper-casing, begins with `VERDICT:`, the result has
`passed = true` — so an LLM reply ignoring the REASONING/VERDICT/ISSUES
format is treated as a passing review.  (The counterexample shows the
unqualified "no line beginning with `VERDICT:`" version is false: the
parser also recognises indented or lower-case verdict lines.) -/
theorem c10_parse_review_fails_open_amended (content : String)
    (h : ∀ l ∈ pySplitlines (pyStrip content),
      "VERDICT:".data.isPrefixOf (pyUpper (pyStrip l)).data = false) :
    (parse_review_response content).passed = true := by
  unfold parse_review_response
  exact foldl_parse_passed _ _ h

/-- C10 witness: the amended theorem on an unformatted LLM reply. -/
theorem c10_parse_review_fails_open_amended_witness :
    (parse_review_response "the model ignored the requested format\nand rambled instead").passed
      = true :=
  c10_parse_review_fails_open_amended
    "the model ignored the requested format\nand rambled instead" (by decide)

/-- C10 counterexample: the input `"REASONING: ok\n verdict: FAIL"`
contains no line beginning with the literal `VERDICT:`, yet the parser
returns `passed = false`, because each line is stripped and upper-cased
before the prefix test. -/
theorem c10_parse_review_counterexample :
    ((pySplitlines "REASONING: ok\n verdict: FAIL").all
      (fun l => !("VERDICT:".data.isPrefixOf l.data))) = true ∧
    (parse_review_response "REASONING: ok\n verdict: FAIL").passed = false := by
  decide

/-! ## Claim C5 -/

/-- C5: when a review fails with `qa_attempt = max_qa_retries`, the
handler publishes no `task.assigned` for the task — its only emission is
a single `qa.failed` event — and sets the task's state to `qa_failed`;
whereas a failing review with `qa_attempt < max_qa_retries` re-emits
`task.assigned` carrying the QA feedback and increments the stored
`qa_attempt`. -/
theorem c5_qa_retry_exhaustion (maxR : Nat) (devC qaC : String → String)
    (store store2 : List TaskState)
    (payload payload2 : CodeGeneratedPayload) (result result2 : ReviewResult)
    (hfail : result.passed = false) (hatt : payload.qa_attempt = maxR)
    (hfail2 : result2.passed = false) (hatt2 : payload2.qa_attempt < maxR) :
    ((handle_code_review maxR devC qaC store payload result).events =
        [.qa_failed ⟨payload.plan_id, payload.task_id, result.passed, result.issues,
          payload.code, payload.file_path, payload.qa_attempt, result.reasoning⟩] ∧
     taskAssignedEmissions (handle_code_review maxR devC qaC store payload result).events = [] ∧
     (find_task (handle_code_review maxR devC qaC store payload result).store
         payload.task_id).map (fun t => t.status) = some "qa_failed") ∧
    ((handle_code_review maxR devC qaC store2 payload2 result2).events =
        [.task_assigned (retry_task_payload payload2 result2.issues)] ∧
     (retry_task_payload payload2 result2.issues).qa_feedback =
        qa_feedback_text result2.issues ∧
     (find_task (handle_code_review maxR devC qaC store2 payload2 result2).store
         payload2.task_id).map (fun t => (t.status, t.qa_attempt)) =
        some ("qa_retry", payload2.qa_attempt + 1)) := by
  have hnotlt : ¬ (payload.qa_attempt < maxR) := by omega
  constructor
  · simp only [handle_code_review, hfail, Bool.false_eq_true, if_false, if_neg hnotlt]
    refine ⟨trivial, rfl, ?_⟩
    unfold update_task_state
    cases hf : find_task store payload.task_id with
    | some t =>
        rw [find_task_update_existing _ _ _ _ _ _ _ _ t hf]
        simp
    | none =>
        rw [find_task_update_new _ _ _ _ _ _ _ _ hf]
        simp
  · simp only [handle_code_review, hfail2, Bool.false_eq_true, if_false, if_pos hatt2]
    refine ⟨trivial, rfl, ?_⟩
    unfold update_task_state
    cases hf : find_task store2 payload2.task_id with
    | some t =>
        rw [find_task_update_existing _ _ _ _ _ _ _ _ t hf]
        simp
    | none =>
        rw [find_task_update_new _ _ _ _ _ _ _ _ hf]
        simp

/-- C5 witness: the theorem at `max_qa_retries = 2` with a review that
fails at attempt 2 (exhaustion: one `qa.failed`, no `task.assigned`,
state `qa_failed`) and one failing at attempt 0 (retry: `task.assigned`
with feedback, attempt incremented to 1). -/
theorem c5_qa_retry_exhaustion_witness :
    ((ReviewResult.passed ⟨false, ["bad"], "r1"⟩ = false) ∧
     (CodeGeneratedPayload.qa_attempt ⟨"p1", "t1", "f.py", "c", "python", 2, "d"⟩ = 2) ∧
     (ReviewResult.passed ⟨false, ["worse"], "r2"⟩ = false) ∧
     (CodeGeneratedPayload.qa_attempt ⟨"p1", "t2", "g.py", "c2", "python", 0, "d2"⟩ < 2)) ∧
    (((handle_code_review 2 (fun _ => "") (fun _ => "")
          [⟨"t1", "p1", "completed", "f.py", "c", "", 2⟩]
          ⟨"p1", "t1", "f.py", "c", "python", 2, "d"⟩ ⟨false, ["bad"], "r1"⟩).events =
        [.qa_failed ⟨"p1", "t1", false, ["bad"], "c", "f.py", 2, "r1"⟩] ∧
      taskAssignedEmissions (handle_code_review 2 (fun _ => "") (fun _ => "")
          [⟨"t1", "p1", "completed", "f.py", "c", "", 2⟩]
          ⟨"p1", "t1", "f.py", "c", "python", 2, "d"⟩ ⟨false, ["bad"], "r1"⟩).events = [] ∧
      (find_task (handle_code_review 2 (fun _ => "") (fun _ => "")
          [⟨"t1", "p1", "completed", "f.py", "c", "", 2⟩]
          ⟨"p1", "t1", "f.py", "c", "python", 2, "d"⟩ ⟨false, ["bad"], "r1"⟩).store
          "t1").map (fun t => t.status) = some "qa_failed") ∧
     ((handle_code_review 2 (fun _ => "") (fun _ => "")
          [⟨"t2", "p1", "completed", "g.py", "c2", "", 0⟩]
          ⟨"p1", "t2", "g.py", "c2", "python", 0, "d2"⟩ ⟨false, ["worse"], "r2"⟩).events =
        [.task_assigned (retry_task_payload ⟨"p1", "t2", "g.py", "c2", "python", 0, "d2"⟩ ["worse"])] ∧
      (retry_task_payload ⟨"p1", "t2", "g.py", "c2", "python", 0, "d2"⟩ ["worse"]).qa_feedback =
        qa_feedback_text ["worse"] ∧
      (find_task (handle_code_review 2 (fun _ => "") (fun _ => "")
          [⟨"t2", "p1", "completed", "g.py", "c2", "", 0⟩]
          ⟨"p1", "t2", "g.py", "c2", "python", 0, "d2"⟩ ⟨false, ["worse"], "r2"⟩).store
          "t2").map (fun t => (t.status, t.qa_attempt)) = some ("qa_retry", 0 + 1))) :=
  ⟨⟨rfl, rfl, rfl, by decide⟩,
   c5_qa_retry_exhaustion 2 (fun _ => "") (fun _ => "")
     [⟨"t1", "p1", "completed", "f.py", "c", "", 2⟩]
     [⟨"t2", "p1", "completed", "g.py", "c2", "", 0⟩]
     ⟨"p1", "t1", "f.py", "c", "python", 2, "d"⟩
     ⟨"p1", "t2", "g.py", "c2", "python", 0, "d2"⟩
     ⟨false, ["bad"], "r1"⟩ ⟨false, ["worse"], "r2"⟩
     rfl rfl rfl (by decide)⟩

/-! ## Claim C6 -/

theorem scan_single_file_eq (rules : List (String × Pattern)) (fp code : String) :
    scan_single_file rules fp code =
      (rules.filter (fun r => r.2.search code)).map (fun r => violation_msg fp r.1) := by
  induction rules with
  | nil => rfl
  | cons r rest ih =>
      cases hr : r.2.search code <;>
        simp [scan_single_file, List.filter_cons, hr, ih]

theorem scan_files_go_spec : ∀ (files : List FileEntry) (acc : List String) (n : Nat),
    scan_files_go files acc n =
      (acc ++ files.flatMap (fun f =>
          if f.code = "" then []
          else scan_single_file SECURITY_RULES f.file_path f.code),
       n + (files.filter (fun f => !(f.code == ""))).length) := by
  intro files
  induction files with
  | nil => intro acc n; simp [scan_files_go]
  | cons f fs ih =>
      intro acc n
      by_cases hc : f.code = ""
      · simp [scan_files_go, hc, ih]
      · rw [scan_files_go, if_neg hc, ih]
        simp only [List.flatMap_cons, if_neg hc, List.filter_cons]
        have hb : (!(f.code == "")) = true := by simp [hc]
        rw [hb]
        simp [List.append_assoc]
        omega

theorem scan_violations_eq_pairs (files : List FileEntry) :
    (scan_files files).violations =
      (violation_pairs files).map (fun pr => violation_msg pr.1 pr.2) := by
  unfold scan_files violation_pairs
  rw [scan_files_go_spec]
  simp only [List.nil_append, List.map_flatMap]
  congr 1
  funext f
  by_cases hc : f.code = ""
  · simp [hc]
  · simp only [if_neg hc, scan_single_file_eq, List.map_map]
    rfl

/-- C6 (amended): the scanner is a pure function — rerunning it on the
same `files[]` trivially yields the same `ScanResult` — with `approved`
true exactly when no violation was found and `files_scanned` counting the
files with non-empty code; but its violations are ordered by the position
of the file in `files[]` and then by the position of the rule in the
fixed `SECURITY_RULES` catalogue, which is not the sorted
`(file_path, rule_name)` order the claim states (see the
counterexample). -/
theorem c6_scanner_pure_amended (files : List FileEntry) :
    scan_files files = scan_files files ∧
    (scan_files files).violations =
      (violation_pairs files).map (fun pr => violation_msg pr.1 pr.2) ∧
    (scan_files files).files_scanned =
      (files.filter (fun f => !(f.code == ""))).length ∧
    ((scan_files files).approved = true ↔ (scan_files files).violations = []) := by
  refine ⟨rfl, scan_violations_eq_pairs files, ?_, ?_⟩
  · unfold scan_files
    rw [scan_files_go_spec]
    simp
  · unfold scan_files
    simp [List.isEmpty_iff]

set_option maxRecDepth 400000 in
/-- C6 counterexample: one file matching both `hardcoded_api_key`
(catalogue position 0) and `dangerous_eval` (catalogue position 3)
produces the violations in catalogue order, which is not sorted by
`(file_path, rule_name)`: the pair `("a.py", "hardcoded_api_key")`
precedes `("a.py", "dangerous_eval")` in the output. -/
theorem c6_scanner_ordering_counterexample :
    (scan_files [⟨"a.py", "api_key = \"ABCDEFGHIJKLMNOP\"\neval(x)", ""⟩]).violations =
      ["[a.py] Rule 'hardcoded_api_key': pattern matched",
       "[a.py] Rule 'dangerous_eval': pattern matched"] ∧
    violation_pairs [⟨"a.py", "api_key = \"ABCDEFGHIJKLMNOP\"\neval(x)", ""⟩] =
      [("a.py", "hardcoded_api_key"), ("a.py", "dangerous_eval")] ∧
    pairsSorted (violation_pairs [⟨"a.py", "api_key = \"ABCDEFGHIJKLMNOP\"\neval(x)", ""⟩]) =
      false := by
  refine ⟨?_, by decide, by decide⟩
  rw [scan_violations_eq_pairs]
  decide

/-! ## Claim C8 -/

theorem mem_dropWhile_of_not (p : Char → Bool) :
    ∀ (l : List Char) (c : Char), p c = false → c ∈ l → c ∈ l.dropWhile p := by
  intro l
  induction l with
  | nil => simp
  | cons h t ih =>
      intro c hc hmem
      cases hp : p h
      · rw [List.dropWhile_cons_of_neg (by simp [hp])]
        exact hmem
      · rw [List.dropWhile_cons_of_pos hp]
        rcases List.mem_cons.mp hmem with rfl | hmem'
        · rw [hc] at hp; cases hp
        · exact ih c hc hmem'

theorem pyStrip_ne_empty {s : String} {c : Char} (hc : pySpace c = false)
    (hmem : c ∈ s.data) : pyStrip s ≠ "" := by
  unfold pyStrip
  intro h
  have hd : (((s.data.dropWhile pySpace).reverse.dropWhile pySpace).reverse : List Char) = [] :=
    congrArg String.data h
  have h1 := mem_dropWhile_of_not pySpace s.data c hc hmem
  have h2 := List.mem_reverse.mpr h1
  have h3 := mem_dropWhile_of_not pySpace _ c hc h2
  have h4 := List.mem_reverse.mpr h3
  rw [hd] at h4
  simp at h4

theorem joinSep_head_append (sep x : String) (rest : List String) :
    ∃ y, joinSep sep (x :: rest) = x ++ y := by
  cases rest with
  | nil => exact ⟨"", by simp [joinSep]⟩
  | cons r rs =>
      refine ⟨sep ++ joinSep sep (r :: rs), ?_⟩
      show x ++ sep ++ joinSep sep (r :: rs) = x ++ (sep ++ joinSep sep (r :: rs))
      apply stringDataInj
      simp [String.data_append]

theorem joinSep_strip_ne_empty (sep x : String) (rest : List String) (c : Char)
    (hc : pySpace c = false) (hmem : c ∈ x.data) :
    pyStrip (joinSep sep (x :: rest)) ≠ "" := by
  obtain ⟨y, hy⟩ := joinSep_head_append sep x rest
  rw [hy]
  apply pyStrip_ne_empty hc
  rw [String.data_append]
  exact List.mem_append_left _ hmem

/-- C8: `store_event` always reports success for a fresh `event_id`,
whatever the indexing outcome; with indexing available, exactly the
events of the six selected types produce an indexed point, carrying the
fixed `(importance, impact)` constants of `_event_to_index_text`, and
every other type is not indexed; and an indexed point only arises for
those six types with indexing succeeding. -/
theorem c8_store_event_indexing (log : List EventRow) (e : FullEvent) (index_fails : Bool)
    (hfresh : ∀ r ∈ log, r.event_id ≠ e.event_id) :
    (store_event log e index_fails).stored = true ∧
    (index_fails = false →
      (store_event log e index_fails).indexed.map (fun pt => (pt.importance, pt.impact)) =
        (match e.event_type with
         | .PLAN_CREATED => some ((9 : ℚ)/10, (7 : ℚ)/10)
         | .PIPELINE_CONCLUSION => some (95/100, 1)
         | .QA_FAILED => some (8/10, 9/10)
         | .SECURITY_BLOCKED => some (8/10, 9/10)
         | .QA_PASSED => some (7/10, 8/10)
         | .SECURITY_APPROVED => some (7/10, 8/10)
         | _ => none)) ∧
    ((store_event log e index_fails).indexed.isSome = true →
      e.event_type ∈ indexedTypes ∧ index_fails = false) := by
  have hany : (log.any (fun r => r.event_id == e.event_id)) = false := by
    rw [List.any_eq_false]
    intro r hr
    simpa using hfresh r hr
  have hse : store_event log e index_fails =
      ⟨true,
       log ++ [⟨e.event_id, e.event_type.value, e.producer, e.idempotency_key,
                Json.dumps e.payload, getStrField e.payload "plan_id" ""⟩],
       if index_fails then none else index_event_for_search e⟩ := by
    unfold store_event
    rw [if_neg (by simp [hany])]
  rw [hse]
  refine ⟨rfl, ?_, ?_⟩
  · rintro rfl
    simp only [if_false]
    obtain ⟨eid, et, prod, ts, ik, pl⟩ := e
    cases et <;>
      first
        | (simp [index_event_for_search, event_to_index_text, pyStrip]; done)
        | (unfold index_event_for_search event_to_index_text
           rw [if_neg (joinSep_strip_ne_empty _ _ _ 'P' (by decide) (by decide))]
           rfl)
        | (unfold index_event_for_search event_to_index_text
           rw [if_neg (joinSep_strip_ne_empty _ _ _ 'q' (by decide) (by dsimp only; decide))]
           rfl)
        | (unfold index_event_for_search event_to_index_text
           rw [if_neg (joinSep_strip_ne_empty _ _ _ 's' (by decide) (by dsimp only; decide))]
           rfl)
  · intro hsome
    cases index_fails with
    | true => simp at hsome
    | false =>
        refine ⟨?_, rfl⟩
        simp only [if_false] at hsome
        obtain ⟨eid, et, prod, ts, ik, pl⟩ := e
        cases et <;>
          first
            | (exfalso
               revert hsome
               simp [index_event_for_search, event_to_index_text, pyStrip]
               done)
            | (dsimp only; decide)

/-- C8 witness: storing a fresh `qa.failed` event with indexing available
succeeds and indexes it with constants `(0.8, 0.9)`. -/
theorem c8_store_event_indexing_witness :
    (∀ r ∈ ([] : List EventRow),
      EventRow.event_id r ≠
        FullEvent.event_id ⟨"e1", .QA_FAILED, "qa_service", "ts", "ik",
          .obj [("plan_id", .str "p1"), ("reasoning", .str "bad"),
                ("issues", .arr [.str "x"])]⟩) ∧
    ((store_event [] ⟨"e1", .QA_FAILED, "qa_service", "ts", "ik",
        .obj [("plan_id", .str "p1"), ("reasoning", .str "bad"),
              ("issues", .arr [.str "x"])]⟩ false).stored = true ∧
     (false = false →
       (store_event [] ⟨"e1", .QA_FAILED, "qa_service", "ts", "ik",
          .obj [("plan_id", .str "p1"), ("reasoning", .str "bad"),
                ("issues", .arr [.str "x"])]⟩ false).indexed.map
           (fun pt => (pt.importance, pt.impact)) =
         (match FullEvent.event_type ⟨"e1", .QA_FAILED, "qa_service", "ts", "ik",
            .obj [("plan_id", .str "p1"), ("reasoning", .str "bad"),
                  ("issues", .arr [.str "x"])]⟩ with
          | .PLAN_CREATED => some ((9 : ℚ)/10, (7 : ℚ)/10)
          | .PIPELINE_CONCLUSION => some (95/100, 1)
          | .QA_FAILED => some (8/10, 9/10)
          | .SECURITY_BLOCKED => some (8/10, 9/10)
          | .QA_PASSED => some (7/10, 8/10)
          | .SECURITY_APPROVED => some (7/10, 8/10)
          | _ => none)) ∧
     ((store_event [] ⟨"e1", .QA_FAILED, "qa_service", "ts", "ik",
        .obj [("plan_id", .str "p1"), ("reasoning", .str "bad"),
              ("issues", .arr [.str "x"])]⟩ false).indexed.isSome = true →
       FullEvent.event_type ⟨"e1", .QA_FAILED, "qa_service", "ts", "ik",
         .obj [("plan_id", .str "p1"), ("reasoning", .str "bad"),
               ("issues", .arr [.str "x"])]⟩ ∈ indexedTypes ∧ false = false)) :=
  ⟨by simp,
   c8_store_event_indexing [] ⟨"e1", .QA_FAILED, "qa_service", "ts", "ik",
     .obj [("plan_id", .str "p1"), ("reasoning", .str "bad"),
           ("issues", .arr [.str "x"])]⟩ false (by simp)⟩

/-! ## Claim C4 -/

theorem check_plan_ready_some (devC qaC : String → String) (pid : String)
    (tasks : List TaskState) (hne : tasks ≠ [])
    (hall : ∀ t ∈ tasks, t.status = "qa_passed") :
    check_plan_ready_for_pr devC qaC pid tasks =
      some (plan_pr_payload devC qaC pid tasks) := by
  unfold check_plan_ready_for_pr plan_pr_payload
  rw [if_neg (by simpa [List.isEmpty_iff] using hne),
      if_pos (by rw [List.all_eq_true]; intro t ht; simp [hall t ht])]

theorem check_plan_ready_none (devC qaC : String → String) (pid : String)
    (tasks : List TaskState) (t0 : TaskState) (ht0 : t0 ∈ tasks)
    (hst : ¬ (t0.status = "qa_passed")) :
    check_plan_ready_for_pr devC qaC pid tasks = none := by
  unfold check_plan_ready_for_pr
  by_cases he : tasks.isEmpty
  · rw [if_pos he]
  · rw [if_neg he, if_neg]
    rw [List.all_eq_true]
    intro hall
    exact hst (by simpa using hall t0 ht0)

theorem update_task_state_eq_set_status (store : List TaskState) (tid pid status : String)
    (hfind : (find_task store tid).isSome = true) :
    update_task_state store tid pid status none = set_status tid status store := by
  unfold update_task_state update_task set_status
  rw [if_pos hfind]
  apply List.map_congr_left
  intro t _
  by_cases h : (t.task_id == tid) = true <;> simp [h]

theorem find_task_isSome_of_mem (store : List TaskState) (tid : String)
    (h : ∃ t ∈ store, t.task_id = tid) : (find_task store tid).isSome = true := by
  unfold find_task
  rw [List.find?_isSome]
  obtain ⟨t, ht, htid⟩ := h
  exact ⟨t, ht, by simp [htid]⟩

theorem set_status_map_proj {α : Type} (tid status : String) (store : List TaskState)
    (f : TaskState → α) (hf : ∀ t st, f { t with status := st } = f t) :
    (set_status tid status store).map f = store.map f := by
  unfold set_status
  rw [List.map_map]
  apply List.map_congr_left
  intro t _
  by_cases h : (t.task_id == tid) = true <;> simp [h, Function.comp, hf]

theorem set_status_plan_ids (tid status : String) (store : List TaskState) (pid : String)
    (h : ∀ t ∈ store, t.plan_id = pid) : ∀ t ∈ set_status tid status store, t.plan_id = pid := by
  intro t ht
  unfold set_status at ht
  rcases List.mem_map.mp ht with ⟨t0, ht0, rfl⟩
  by_cases h0 : (t0.task_id == tid) = true <;> simp [h0, h t0 ht0]

theorem set_status_of_not_mem (tid status : String) (store : List TaskState)
    (h : tid ∉ store.map (fun t => t.task_id)) : set_status tid status store = store := by
  unfold set_status
  have : store.map (fun t => if (t.task_id == tid) = true then { t with status := status } else t) =
      store.map id := by
    apply List.map_congr_left
    intro t ht
    have htid : t.task_id ≠ tid := by
      intro he
      exact h (List.mem_map.mpr ⟨t, ht, he⟩)
    simp [htid]
  simpa using this

theorem pending_ids_set_status (tid : String) :
    ∀ store : List TaskState,
      (store.map (fun t => t.task_id)).Nodup →
      ((set_status tid "qa_passed" store).filter
          (fun t => !(t.status == "qa_passed"))).map (fun t => t.task_id) =
        ((store.filter (fun t => !(t.status == "qa_passed"))).map
          (fun t => t.task_id)).erase tid := by
  intro store
  induction store with
  | nil => intro _; simp [set_status]
  | cons t ts ih =>
      intro hnd
      rw [List.map_cons, List.nodup_cons] at hnd
      obtain ⟨hnotin, hnd'⟩ := hnd
      cases htid : (t.task_id == tid) with
      | false =>
          have htne : t.task_id ≠ tid := by simpa using htid
          rw [show set_status tid "qa_passed" (t :: ts) =
              t :: set_status tid "qa_passed" ts from by simp [set_status, htne]]
          cases hst : (t.status == "qa_passed") with
          | false =>
              rw [List.filter_cons_of_pos (by simp [hst]),
                  List.filter_cons_of_pos (by simp [hst]),
                  List.map_cons, List.map_cons,
                  List.erase_cons_tail (by simpa using htne)]
              rw [ih hnd']
          | true =>
              rw [List.filter_cons_of_neg (by simp [hst]),
                  List.filter_cons_of_neg (by simp [hst])]
              exact ih hnd'
      | true =>
          have hte : t.task_id = tid := by simpa using htid
          subst hte
          rw [show set_status t.task_id "qa_passed" (t :: ts) =
              { t with status := "qa_passed" } :: set_status t.task_id "qa_passed" ts from by
            simp [set_status]]
          rw [set_status_of_not_mem _ _ _ hnotin]
          rw [List.filter_cons_of_neg (by simp)]
          cases hst : (t.status == "qa_passed") with
          | false =>
              rw [List.filter_cons_of_pos (by simp [hst]), List.map_cons,
                  List.erase_cons_head]
          | true =>
              rw [List.filter_cons_of_neg (by simp [hst]),
                  List.erase_of_not_mem]
              intro hmem
              rcases List.mem_map.mp hmem with ⟨t0, ht0, he⟩
              exact hnotin (List.mem_map.mpr ⟨t0, List.mem_of_mem_filter ht0, he⟩)

theorem handle_code_review_passed (maxR : Nat) (devC qaC : String → String)
    (store : List TaskState) (p : CodeGeneratedPayload) (r : ReviewResult)
    (hr : r.passed = true)
    (hplan : ∀ t ∈ store, t.plan_id = p.plan_id)
    (hfind : (find_task store p.task_id).isSome = true) :
    handle_code_review maxR devC qaC store p r =
      ⟨QAEvent.qa_passed ⟨p.plan_id, p.task_id, r.passed, r.issues, p.code,
          p.file_path, p.qa_attempt, r.reasoning⟩ ::
        (match check_plan_ready_for_pr (cacheInsert devC p.task_id p.reasoning)
            (cacheInsert qaC p.task_id r.reasoning) p.plan_id
            (set_status p.task_id "qa_passed" store) with
         | some pr => [QAEvent.pr_requested pr]
         | none => []),
       set_status p.task_id "qa_passed" store,
       cacheInsert devC p.task_id p.reasoning,
       cacheInsert qaC p.task_id r.reasoning⟩ := by
  unfold handle_code_review
  rw [hr]
  simp only [if_true]
  rw [update_task_state_eq_set_status _ _ _ _ hfind]
  have hfilter : (set_status p.task_id "qa_passed" store).filter
      (fun t => t.plan_id == p.plan_id) = set_status p.task_id "qa_passed" store := by
    rw [List.filter_eq_self]
    intro t ht
    simp [set_status_plan_ids _ _ _ _ hplan t ht]
  rw [hfilter]
  cases hc : check_plan_ready_for_pr (cacheInsert devC p.task_id p.reasoning)
      (cacheInsert qaC p.task_id r.reasoning) p.plan_id
      (set_status p.task_id "qa_passed" store) <;> simp [hc]

theorem run_qa_passes_spec (maxR : Nat) (pid : String) :
    ∀ (passes : List (CodeGeneratedPayload × ReviewResult)) (store : List TaskState)
      (devC qaC : String → String),
      (∀ t ∈ store, t.plan_id = pid) →
      ((store.map (fun t => t.task_id)).Nodup) →
      (∀ pr ∈ passes, pr.1.plan_id = pid) →
      (∀ pr ∈ passes, pr.2.passed = true) →
      (((store.filter (fun t => !(t.status == "qa_passed"))).map (fun t => t.task_id)).Perm
        (passes.map (fun pr => pr.1.task_id))) →
      passes ≠ [] →
      ((∀ t ∈ (run_qa_passes maxR devC qaC store passes).store, t.plan_id = pid) ∧
       (run_qa_passes maxR devC qaC store passes).store.map (fun t => t.task_id) =
         store.map (fun t => t.task_id) ∧
       (run_qa_passes maxR devC qaC store passes).store.map (fun t => t.file_path) =
         store.map (fun t => t.file_path) ∧
       (run_qa_passes maxR devC qaC store passes).store.map (fun t => t.code) =
         store.map (fun t => t.code) ∧
       (run_qa_passes maxR devC qaC store passes).store.map (fun t => t.repo_url) =
         store.map (fun t => t.repo_url) ∧
       (∀ t ∈ (run_qa_passes maxR devC qaC store passes).store, t.status = "qa_passed") ∧
       prEmissions (run_qa_passes maxR devC qaC store passes).events =
         [plan_pr_payload (run_qa_passes maxR devC qaC store passes).devCache
            (run_qa_passes maxR devC qaC store passes).qaCache pid
            (run_qa_passes maxR devC qaC store passes).store]) := by
  intro passes
  induction passes with
  | nil => intro store devC qaC _ _ _ _ _ hne; exact absurd rfl hne
  | cons pr0 rest ih =>
      obtain ⟨p, r⟩ := pr0
      intro store devC qaC hplan hnodup hpid hpass hperm _
      have hppid : p.plan_id = pid := hpid (p, r) (by simp)
      have hrpass : r.passed = true := hpass (p, r) (by simp)
      have hmemp : p.task_id ∈
          (store.filter (fun t => !(t.status == "qa_passed"))).map (fun t => t.task_id) :=
        hperm.mem_iff.mpr (by simp)
      obtain ⟨t0, ht0f, ht0id⟩ := List.mem_map.mp hmemp
      have hfind : (find_task store p.task_id).isSome = true :=
        find_task_isSome_of_mem store p.task_id ⟨t0, List.mem_of_mem_filter ht0f, ht0id⟩
      have hstep := handle_code_review_passed maxR devC qaC store p r hrpass
        (by rw [hppid]; exact hplan) hfind
      have hpend1 := pending_ids_set_status p.task_id store hnodup
      have hperase : ((store.filter (fun t => !(t.status == "qa_passed"))).map
          (fun t => t.task_id)).erase p.task_id |>.Perm
            (rest.map (fun pr => pr.1.task_id)) := by
        have h1 := List.perm_cons_erase hmemp
        have h2 : (p.task_id :: ((store.filter (fun t => !(t.status == "qa_passed"))).map
            (fun t => t.task_id)).erase p.task_id).Perm
              (p.task_id :: rest.map (fun pr => pr.1.task_id)) :=
          h1.symm.trans (by simpa using hperm)
        exact h2.cons_inv
      have hperm1 : (((set_status p.task_id "qa_passed" store).filter
          (fun t => !(t.status == "qa_passed"))).map (fun t => t.task_id)).Perm
            (rest.map (fun pr => pr.1.task_id)) := by
        rw [hpend1]
        exact hperase
      have hplan1 := set_status_plan_ids p.task_id "qa_passed" store pid hplan
      have hids1 : (set_status p.task_id "qa_passed" store).map (fun t => t.task_id) =
          store.map (fun t => t.task_id) :=
        set_status_map_proj _ _ _ _ (fun _ _ => rfl)
      have hfile1 : (set_status p.task_id "qa_passed" store).map (fun t => t.file_path) =
          store.map (fun t => t.file_path) :=
        set_status_map_proj _ _ _ _ (fun _ _ => rfl)
      have hcode1 : (set_status p.task_id "qa_passed" store).map (fun t => t.code) =
          store.map (fun t => t.code) :=
        set_status_map_proj _ _ _ _ (fun _ _ => rfl)
      have hrepo1 : (set_status p.task_id "qa_passed" store).map (fun t => t.repo_url) =
          store.map (fun t => t.repo_url) :=
        set_status_map_proj _ _ _ _ (fun _ _ => rfl)
      have hnodup1 : ((set_status p.task_id "qa_passed" store).map
          (fun t => t.task_id)).Nodup := by rw [hids1]; exact hnodup
      cases rest with
      | nil =>
          have hpnil : ((set_status p.task_id "qa_passed" store).filter
              (fun t => !(t.status == "qa_passed"))).map (fun t => t.task_id) = [] := by
            rw [hpend1]
            exact hperase.eq_nil
          have hfnil : (set_status p.task_id "qa_passed" store).filter
              (fun t => !(t.status == "qa_passed")) = [] :=
            List.map_eq_nil_iff.mp hpnil
          have hall : ∀ t ∈ set_status p.task_id "qa_passed" store,
              t.status = "qa_passed" := by
            intro t ht
            by_contra hne
            have : t ∈ (set_status p.task_id "qa_passed" store).filter
                (fun t => !(t.status == "qa_passed")) :=
              List.mem_filter.mpr ⟨ht, by simp [hne]⟩
            rw [hfnil] at this
            simp at this
          have hsne : set_status p.task_id "qa_passed" store ≠ [] := by
            intro hnil
            rw [hnil] at hids1
            cases store with
            | nil => simp at hmemp
            | cons a as => simp at hids1
          have hcheck := check_plan_ready_some
            (cacheInsert devC p.task_id p.reasoning)
            (cacheInsert qaC p.task_id r.reasoning) pid
            (set_status p.task_id "qa_passed" store) hsne hall
          simp only [run_qa_passes]
          rw [hstep]
          simp only [hppid, hcheck]
          refine ⟨hplan1, hids1, hfile1, hcode1, hrepo1, hall, ?_⟩
          simp [prEmissions]
      | cons q rest' =>
          have hrne : (q :: rest').map (fun pr => pr.1.task_id) ≠ [] := by simp
          have hpne1 : ((set_status p.task_id "qa_passed" store).filter
              (fun t => !(t.status == "qa_passed"))).map (fun t => t.task_id) ≠ [] := by
            intro hnil
            rw [hnil] at hperm1
            exact hrne hperm1.nil_eq.symm
          have hfne1 : (set_status p.task_id "qa_passed" store).filter
              (fun t => !(t.status == "qa_passed")) ≠ [] := by
            intro h
            rw [h] at hpne1
            simp at hpne1
          obtain ⟨t1, ht1⟩ := List.exists_mem_of_ne_nil _ hfne1
          have ht1s : t1 ∈ set_status p.task_id "qa_passed" store :=
            List.mem_of_mem_filter ht1
          have ht1st : ¬ (t1.status = "qa_passed") := by
            have := (List.mem_filter.mp ht1).2
            simpa using this
          have hcheck := check_plan_ready_none
            (cacheInsert devC p.task_id p.reasoning)
            (cacheInsert qaC p.task_id r.reasoning) pid
            (set_status p.task_id "qa_passed" store) t1 ht1s ht1st
          have hihres := ih (set_status p.task_id "qa_passed" store)
            (cacheInsert devC p.task_id p.reasoning)
            (cacheInsert qaC p.task_id r.reasoning)
            hplan1 hnodup1
            (fun x hx => hpid x (by simp [hx]))
            (fun x hx => hpass x (by simp [hx]))
            hperm1 (by simp)
          simp only [run_qa_passes]
          rw [hstep]
          simp only [hppid, hcheck]
          obtain ⟨ih1, ih2, ih3, ih4, ih5, ih6, ih7⟩ := hihres
          refine ⟨ih1, ih2.trans hids1, ih3.trans hfile1, ih4.trans hcode1,
            ih5.trans hrepo1, ih6, ?_⟩
          simp only [prEmissions, List.filterMap_cons]
          exact ih7

/-- C4: for a plan whose `N` tasks are all stored (distinct ids, none yet
`qa_passed`), processing one passing QA review per task emits exactly one
`pr.requested` for the plan, and its `files` list has one entry per task
(`length = N`), each carrying that task's `file_path`, `code`, and the
combined dev+QA reasoning chain from the caches. -/
theorem c4_plan_readiness_barrier (maxR : Nat) (devC qaC : String → String)
    (store : List TaskState) (pid : String)
    (passes : List (CodeGeneratedPayload × ReviewResult))
    (hplan : ∀ t ∈ store, t.plan_id = pid)
    (hnodup : (store.map (fun t => t.task_id)).Nodup)
    (hpending : ∀ t ∈ store, t.status ≠ "qa_passed")
    (hpid : ∀ pr ∈ passes, pr.1.plan_id = pid)
    (hpass : ∀ pr ∈ passes, pr.2.passed = true)
    (hcover : (passes.map (fun pr => pr.1.task_id)).Perm (store.map (fun t => t.task_id)))
    (hne : store ≠ []) :
    (prEmissions (run_qa_passes maxR devC qaC store passes).events).length = 1 ∧
    ∀ pr ∈ prEmissions (run_qa_passes maxR devC qaC store passes).events,
      pr.plan_id = pid ∧
      pr.files.length = store.length ∧
      pr.files.map (fun f => f.file_path) = store.map (fun t => t.file_path) ∧
      pr.files.map (fun f => f.code) = store.map (fun t => t.code) ∧
      pr.files.map (fun f => f.task_id) = store.map (fun t => t.task_id) ∧
      pr.files.map (fun f => f.reasoning) =
        (run_qa_passes maxR devC qaC store passes).store.map (fun t =>
          build_chain_reasoning (run_qa_passes maxR devC qaC store passes).devCache
            (run_qa_passes maxR devC qaC store passes).qaCache t.task_id) := by
  have hfilter : store.filter (fun t => !(t.status == "qa_passed")) = store := by
    rw [List.filter_eq_self]
    intro t ht
    simp [hpending t ht]
  have hperm : ((store.filter (fun t => !(t.status == "qa_passed"))).map
      (fun t => t.task_id)).Perm (passes.map (fun pr => pr.1.task_id)) := by
    rw [hfilter]
    exact hcover.symm
  have hpne : passes ≠ [] := by
    intro h
    subst h
    have := hcover.symm.eq_nil
    rw [List.map_eq_nil_iff] at this
    exact hne this
  obtain ⟨h1, h2, h3, h4, h5, h6, h7⟩ :=
    run_qa_passes_spec maxR pid passes store devC qaC hplan hnodup hpid hpass hperm hpne
  rw [h7]
  refine ⟨rfl, ?_⟩
  intro pr hpr
  have hpr0 : pr = plan_pr_payload (run_qa_passes maxR devC qaC store passes).devCache
      (run_qa_passes maxR devC qaC store passes).qaCache pid
      (run_qa_passes maxR devC qaC store passes).store := by simpa using hpr
  subst hpr0
  unfold plan_pr_payload
  refine ⟨rfl, ?_, ?_, ?_, ?_, ?_⟩
  · simp only [List.length_map]
    have := congrArg List.length h2
    simpa using this
  · rw [List.map_map]
    exact h3
  · rw [List.map_map]
    exact h4
  · rw [List.map_map]
    exact h2
  · rw [List.map_map]
    rfl

/-- C4 witness: a two-task plan, both tasks initially `completed`; two
passing reviews produce exactly one `pr.requested` with two file
entries. -/
theorem c4_plan_readiness_barrier_witness :
    ((∀ t ∈ [(⟨"t1", "p1", "completed", "a.py", "c1", "git@h:u/r", 0⟩ : TaskState),
             ⟨"t2", "p1", "completed", "b.py", "c2", "git@h:u/r", 0⟩], t.plan_id = "p1") ∧
     (([(⟨"t1", "p1", "completed", "a.py", "c1", "git@h:u/r", 0⟩ : TaskState),
        ⟨"t2", "p1", "completed", "b.py", "c2", "git@h:u/r", 0⟩].map
          (fun t => t.task_id)).Nodup) ∧
     (∀ t ∈ [(⟨"t1", "p1", "completed", "a.py", "c1", "git@h:u/r", 0⟩ : TaskState),
             ⟨"t2", "p1", "completed", "b.py", "c2", "git@h:u/r", 0⟩],
        t.status ≠ "qa_passed")) ∧
    ((prEmissions (run_qa_passes 2 (fun _ => "") (fun _ => "")
        [⟨"t1", "p1", "completed", "a.py", "c1", "git@h:u/r", 0⟩,
         ⟨"t2", "p1", "completed", "b.py", "c2", "git@h:u/r", 0⟩]
        [(⟨"p1", "t1", "a.py", "c1", "python", 0, "d1"⟩, ⟨true, [], "q1"⟩),
         (⟨"p1", "t2", "b.py", "c2", "python", 0, "d2"⟩, ⟨true, [], "q2"⟩)]).events).length = 1 ∧
     ∀ pr ∈ prEmissions (run_qa_passes 2 (fun _ => "") (fun _ => "")
        [⟨"t1", "p1", "completed", "a.py", "c1", "git@h:u/r", 0⟩,
         ⟨"t2", "p1", "completed", "b.py", "c2", "git@h:u/r", 0⟩]
        [(⟨"p1", "t1", "a.py", "c1", "python", 0, "d1"⟩, ⟨true, [], "q1"⟩),
         (⟨"p1", "t2", "b.py", "c2", "python", 0, "d2"⟩, ⟨true, [], "q2"⟩)]).events,
       pr.plan_id = "p1" ∧
       pr.files.length =
         [(⟨"t1", "p1", "completed", "a.py", "c1", "git@h:u/r", 0⟩ : TaskState),
          ⟨"t2", "p1", "completed", "b.py", "c2", "git@h:u/r", 0⟩].length ∧
       pr.files.map (fun f => f.file_path) =
         [(⟨"t1", "p1", "completed", "a.py", "c1", "git@h:u/r", 0⟩ : TaskState),
          ⟨"t2", "p1", "completed", "b.py", "c2", "git@h:u/r", 0⟩].map (fun t => t.file_path) ∧
       pr.files.map (fun f => f.code) =
         [(⟨"t1", "p1", "completed", "a.py", "c1", "git@h:u/r", 0⟩ : TaskState),
          ⟨"t2", "p1", "completed", "b.py", "c2", "git@h:u/r", 0⟩].map (fun t => t.code) ∧
       pr.files.map (fun f => f.task_id) =
         [(⟨"t1", "p1", "completed", "a.py", "c1", "git@h:u/r", 0⟩ : TaskState),
          ⟨"t2", "p1", "completed", "b.py", "c2", "git@h:u/r", 0⟩].map (fun t => t.task_id) ∧
       pr.files.map (fun f => f.reasoning) =
         (run_qa_passes 2 (fun _ => "") (fun _ => "")
            [⟨"t1", "p1", "completed", "a.py", "c1", "git@h:u/r", 0⟩,
             ⟨"t2", "p1", "completed", "b.py", "c2", "git@h:u/r", 0⟩]
            [(⟨"p1", "t1", "a.py", "c1", "python", 0, "d1"⟩, ⟨true, [], "q1"⟩),
             (⟨"p1", "t2", "b.py", "c2", "python", 0, "d2"⟩, ⟨true, [], "q2"⟩)]).store.map
           (fun t => build_chain_reasoning
             (run_qa_passes 2 (fun _ => "") (fun _ => "")
                [⟨"t1", "p1", "completed", "a.py", "c1", "git@h:u/r", 0⟩,
                 ⟨"t2", "p1", "completed", "b.py", "c2", "git@h:u/r", 0⟩]
                [(⟨"p1", "t1", "a.py", "c1", "python", 0, "d1"⟩, ⟨true, [], "q1"⟩),
                 (⟨"p1", "t2", "b.py", "c2", "python", 0, "d2"⟩, ⟨true, [], "q2"⟩)]).devCache
             (run_qa_passes 2 (fun _ => "") (fun _ => "")
                [⟨"t1", "p1", "completed", "a.py", "c1", "git@h:u/r", 0⟩,
                 ⟨"t2", "p1", "completed", "b.py", "c2", "git@h:u/r", 0⟩]
                [(⟨"p1", "t1", "a.py", "c1", "python", 0, "d1"⟩, ⟨true, [], "q1"⟩),
                 (⟨"p1", "t2", "b.py", "c2", "python", 0, "d2"⟩, ⟨true, [], "q2"⟩)]).qaCache
             t.task_id)) :=
  ⟨⟨by decide, by decide, by decide⟩,
   c4_plan_readiness_barrier 2 (fun _ => "") (fun _ => "")
     [⟨"t1", "p1", "completed", "a.py", "c1", "git@h:u/r", 0⟩,
      ⟨"t2", "p1", "completed", "b.py", "c2", "git@h:u/r", 0⟩] "p1"
     [(⟨"p1", "t1", "a.py", "c1", "python", 0, "d1"⟩, ⟨true, [], "q1"⟩),
      (⟨"p1", "t2", "b.py", "c2", "python", 0, "d2"⟩, ⟨true, [], "q2"⟩)]
     (by decide) (by decide) (by decide) (by decide) (by decide) (by decide) (by decide)⟩
